import Mathlib

/-!
Shallow embedding, in Lean 4, of the miu2d sprite/tile codec suite
(ASF / MPC / MSF sprite converters and decoders, MAP → MMF tile-map
translator), together with theorems settling the claims of the
specification against the code.

Conventions of the embedding:
* A Rust byte buffer `&[u8]` is a `List Nat` whose elements are byte
  values (< 256 on all real inputs).
* Machine integers are `Nat` / `Int` with explicit wrap-around
  (`% 2 ^ w`) exactly where the Rust source performs an `as` cast.
* Rust `while` loops whose cursor strictly advances are modelled with an
  explicit fuel argument; every call site passes a fuel that dominates
  the loop's iteration count (the cursor advances by at least one per
  iteration and is bounded by the fuel chosen), so the fuelled function
  agrees with the source loop.
* Fallible operations return `Option`; a Rust panic (out-of-bounds
  index) is modelled by a dedicated result constructor.
-/

set_option maxHeartbeats 1600000
set_option maxRecDepth 100000

/-- RGBA palette entry, the `[u8; 4]` of the Rust sources. -/
structure Rgba where
  r : Nat
  g : Nat
  b : Nat
  a : Nat
deriving DecidableEq, Repr

/-- Little-endian `u16` byte pair, as produced by `u16::to_le_bytes`. -/
def u16le (v : Nat) : List Nat := [v % 256, v / 256 % 256]

/-- Little-endian `u32` bytes, as produced by `u32::to_le_bytes`. -/
def u32le (v : Nat) : List Nat :=
  [v % 256, v / 256 % 256, v / 65536 % 256, v / 16777216 % 256]

/-- Two's-complement low 16 bits of an integer, re-read as a signed
`i16` (the `as i16` cast of the Rust sources). -/
def toI16 (n : Int) : Int :=
  if n % 65536 < 32768 then n % 65536 else n % 65536 - 65536

/-- Little-endian bytes of an `i16`, as produced by `i16::to_le_bytes`. -/
def i16le (v : Int) : List Nat :=
  [((v % 65536).toNat) % 256, ((v % 65536).toNat) / 256 % 256]

/-- Decode a little-endian `u16` from two bytes (`u16::from_le_bytes`). -/
def u16fromLe (b0 b1 : Nat) : Nat := b0 + 256 * b1

/-- Decode a little-endian `i16` from two bytes (`i16::from_le_bytes`). -/
def i16fromLe (b0 b1 : Nat) : Int :=
  let v := b0 + 256 * b1
  if v < 32768 then (v : Int) else (v : Int) - 65536

/-- Decode a little-endian `u32` from four bytes (`u32::from_le_bytes`). -/
def u32fromLe (b0 b1 b2 b3 : Nat) : Nat :=
  b0 + 256 * b1 + 65536 * b2 + 16777216 * b3

/-- `get_u32_le` of the Rust sources: bounds-checked little-endian `u32`
read that yields `0` past the end of the buffer. -/
def get_u32_le (data : List Nat) (off : Nat) : Nat :=
  if off + 4 > data.length then 0
  else u32fromLe (data.getD off 0) (data.getD (off + 1) 0)
    (data.getD (off + 2) 0) (data.getD (off + 3) 0)

/-- `get_i32_le` of the Rust sources: bounds-checked little-endian `i32`
read that yields `0` past the end of the buffer. -/
def get_i32_le (data : List Nat) (off : Nat) : Int :=
  if off + 4 > data.length then 0
  else
    let v := u32fromLe (data.getD off 0) (data.getD (off + 1) 0)
      (data.getD (off + 2) 0) (data.getD (off + 3) 0)
    if v < 2147483648 then (v : Int) else (v : Int) - 4294967296

/-- The `i32 as u16` cast (low 16 bits of the two's complement). -/
def i32AsU16 (x : Int) : Nat := (x % 65536).toNat

/-- The `i32 as u8` cast (low 8 bits of the two's complement). -/
def i32AsU8 (x : Int) : Nat := (x % 256).toNat

/-- The `i32 as usize` cast on a 64-bit target (sign-extend, then
reinterpret as an unsigned 64-bit value). -/
def i32AsUsize (x : Int) : Nat := (x % 18446744073709551616).toNat

-- ===========================================================================
-- QUANT — nearest-palette quantizer
-- (src/packages/asf2msf/src/main.rs `rgba_to_indexed_alpha`,
--  src/packages/engine-wasm/src/msf_codec.rs `rgba_to_indexed_alpha`)
-- ===========================================================================

/-- L1 colour distance over RGB of the Rust quantizer:
`(r - pr).unsigned_abs() + (g - pg).unsigned_abs() + (b - pb).unsigned_abs()`. -/
def l1Dist (r g b : Nat) (e : Rgba) : Nat :=
  ((r : Int) - e.r).natAbs + ((g : Int) - e.g).natAbs + ((b : Int) - e.b).natAbs

/-- The palette search loop of `rgba_to_indexed_alpha`: walks the
palette keeping the first strictly-better index (`dist < best_dist`),
stores the index through the `as u8` cast, and breaks early on an exact
match (`dist == 0`). -/
def bestLoop (r g b : Nat) : List Rgba → Nat → Nat → Nat → Nat
  | [], _, bi, _ => bi
  | e :: rest, j, bi, bd =>
    let dist := l1Dist r g b e
    if dist < bd then
      if dist = 0 then j % 256
      else bestLoop r g b rest (j + 1) (j % 256) dist
    else bestLoop r g b rest (j + 1) bi bd

/-- Per-pixel body of `rgba_to_indexed_alpha`: a fully transparent pixel
(`a == 0`) emits `(0, 0)` without searching; otherwise the nearest
palette index (initial best distance `u32::MAX`) is paired with the
original alpha. -/
def rgbaPixelToIndexedAlpha (r g b a : Nat) (palette : List Rgba) : Nat × Nat :=
  if a = 0 then (0, 0)
  else (bestLoop r g b palette 0 0 4294967295, a)

/-- `rgba_to_indexed_alpha` over a whole RGBA buffer: two output bytes
(index, alpha) per input pixel. -/
def rgba_to_indexed_alpha (pixels : List Nat) (palette : List Rgba) : List Nat :=
  (List.range (pixels.length / 4)).foldl (fun acc i =>
    let r := pixels.getD (i * 4) 0
    let g := pixels.getD (i * 4 + 1) 0
    let b := pixels.getD (i * 4 + 2) 0
    let a := pixels.getD (i * 4 + 3) 0
    let p := rgbaPixelToIndexedAlpha r g b a palette
    acc ++ [p.1, p.2]) []

-- ===========================================================================
-- BBOX — tight bounding box
-- (src/packages/asf2msf/src/main.rs `compute_tight_bbox`,
--  src/packages/engine-wasm/src/msf_codec.rs `compute_tight_bbox`)
-- ===========================================================================

/-- Scan state of `compute_tight_bbox`. -/
structure BboxState where
  min_x : Nat
  min_y : Nat
  max_x : Nat
  max_y : Nat
  has_content : Bool
deriving DecidableEq, Repr

/-- Per-pixel update of the `compute_tight_bbox` scan: a pixel whose
alpha byte is in range and positive widens the running extreme values
and switches `has_content` on. -/
def bboxStep (pixels : List Nat) (width : Nat) (y x : Nat) (st : BboxState) : BboxState :=
  let idx := (y * width + x) * 4
  if idx + 3 < pixels.length ∧ 0 < pixels.getD (idx + 3) 0 then
    { min_x := if x < st.min_x then x else st.min_x
      min_y := if y < st.min_y then y else st.min_y
      max_x := if x > st.max_x then x else st.max_x
      max_y := if y > st.max_y then y else st.max_y
      has_content := true }
  else st

/-- `compute_tight_bbox`: row-major scan of the canvas; returns
`(0, 0, 0, 0)` when nothing is opaque, else
`(min_x as i16, min_y as i16, (max_x - min_x + 1) as u16,
(max_y - min_y + 1) as u16)`. -/
def compute_tight_bbox (pixels : List Nat) (width height : Nat) : Int × Int × Nat × Nat :=
  let st := (List.range height).foldl (fun st y =>
    (List.range width).foldl (fun st x => bboxStep pixels width y x st) st)
    ⟨width, height, 0, 0, false⟩
  if st.has_content = false then (0, 0, 0, 0)
  else (toI16 st.min_x, toI16 st.min_y,
    (st.max_x - st.min_x + 1) % 65536, (st.max_y - st.min_y + 1) % 65536)

/-- `extract_bbox_pixels`: copies `h` rows of `w` RGBA pixels out of the
canvas, zero-filling any row that would run past the source buffer. -/
def extract_bbox_pixels (pixels : List Nat) (full_width ox oy w h : Nat) : List Nat :=
  (List.range h).foldl (fun out yr =>
    let start := ((oy + yr) * full_width + ox) * 4
    if start + w * 4 ≤ pixels.length then
      out ++ (List.range (w * 4)).map (fun k => pixels.getD (start + k) 0)
    else
      out ++ List.replicate (w * 4) 0) []

-- ===========================================================================
-- TPIX — transparent-index discovery
-- (src/packages/converter/src/bin/mpc2msf.rs `find_transparent_index_mpc`,
--  identical copy in src/packages/converter/src/bin/convert_all.rs)
-- ===========================================================================

/-- Point update of the `used: [bool; 256]` marking array (modelled as a
total function so that the update is harmless for non-byte values). -/
def setUsed (used : Nat → Bool) (k : Nat) : Nat → Bool :=
  fun i => if i = k then true else used i

/-- Inner loop of the marking pass: consume up to `count` opaque
pixel-index bytes, bounded by the pixel budget and the end of the
buffer, marking each consumed byte as used. -/
def mpcMarkInner (data : List Nat) (total : Nat) :
    Nat → (Nat → Bool) → Nat → Nat → ((Nat → Bool) × Nat × Nat)
  | 0, used, off, pix => (used, off, pix)
  | count + 1, used, off, pix =>
    if pix ≥ total ∨ off ≥ data.length then (used, off, pix)
    else mpcMarkInner data total count (setUsed used (data.getD off 0)) (off + 1) (pix + 1)

/-- Outer loop of the marking pass over one frame's RLE stream.  The
fuel dominates the iteration count: the cursor `off` strictly increases
every iteration and the loop requires `off < rle_end`. -/
def mpcMarkLoop (data : List Nat) (rle_end total : Nat) :
    Nat → (Nat → Bool) → Nat → Nat → (Nat → Bool)
  | 0, used, _, _ => used
  | fuel + 1, used, off, pix =>
    if off < rle_end ∧ off < data.length ∧ pix < total then
      let byte := data.getD off 0
      if byte > 128 then
        mpcMarkLoop data rle_end total fuel used (off + 1) (pix + (byte - 128))
      else
        let r := mpcMarkInner data total byte used (off + 1) pix
        mpcMarkLoop data rle_end total fuel r.1 r.2.1 r.2.2
    else used

/-- Marking pass for one frame of `find_transparent_index_mpc`: skip the
frame when its 12-byte header prefix is truncated or its dimensions are
zero or exceed 2048, else traverse its RLE stream. -/
def markFrameUsed (mpc_data : List Nat) (frame_data_start : Nat)
    (used : Nat → Bool) (off : Nat) : Nat → Bool :=
  let ds := frame_data_start + off
  if ds + 12 > mpc_data.length then used
  else
    let data_len := get_u32_le mpc_data ds
    let width := get_u32_le mpc_data (ds + 4)
    let height := get_u32_le mpc_data (ds + 8)
    if width = 0 ∨ height = 0 ∨ width > 2048 ∨ height > 2048 then used
    else
      mpcMarkLoop mpc_data (ds + data_len) (width * height) (ds + data_len + 1)
        used (ds + 20) 0

/-- The `for i in 0..256 { if !used[i] { return i } }; 0` scan at the
end of `find_transparent_index_mpc`. -/
def firstUnusedLoop (used : Nat → Bool) : Nat → Nat → Nat
  | 0, _ => 0
  | n + 1, i => if used i = false then i else firstUnusedLoop used n (i + 1)

/-- `find_transparent_index_mpc`: mark every palette slot referenced as
an opaque pixel-index byte by any frame's RLE stream, then return the
smallest unmarked index in `0..256`, falling back to `0`. -/
def find_transparent_index_mpc (mpc_data : List Nat) (frame_data_start : Nat)
    (data_offsets : List Nat) : Nat :=
  let used := data_offsets.foldl
    (fun used off => markFrameUsed mpc_data frame_data_start used off)
    (fun _ => false)
  firstUnusedLoop used 256 0

/-- Reference-list reformulation of the marking pass (same traversal,
collecting the consumed opaque pixel-index bytes in order instead of
setting flags); used to state which slots the pass marks. -/
def mpcCollectInner (data : List Nat) (total : Nat) :
    Nat → List Nat → Nat → Nat → (List Nat × Nat × Nat)
  | 0, acc, off, pix => (acc, off, pix)
  | count + 1, acc, off, pix =>
    if pix ≥ total ∨ off ≥ data.length then (acc, off, pix)
    else mpcCollectInner data total count (acc ++ [data.getD off 0]) (off + 1) (pix + 1)

/-- Outer loop of the reference-list reformulation. -/
def mpcCollectLoop (data : List Nat) (rle_end total : Nat) :
    Nat → List Nat → Nat → Nat → List Nat
  | 0, acc, _, _ => acc
  | fuel + 1, acc, off, pix =>
    if off < rle_end ∧ off < data.length ∧ pix < total then
      let byte := data.getD off 0
      if byte > 128 then
        mpcCollectLoop data rle_end total fuel acc (off + 1) (pix + (byte - 128))
      else
        let r := mpcCollectInner data total byte acc (off + 1) pix
        mpcCollectLoop data rle_end total fuel r.1 r.2.1 r.2.2
    else acc

/-- Opaque pixel-index bytes referenced by one frame, per the
reference-list reformulation of the marking pass. -/
def mpcFrameRefs (mpc_data : List Nat) (frame_data_start : Nat)
    (acc : List Nat) (off : Nat) : List Nat :=
  let ds := frame_data_start + off
  if ds + 12 > mpc_data.length then acc
  else
    let data_len := get_u32_le mpc_data ds
    let width := get_u32_le mpc_data (ds + 4)
    let height := get_u32_le mpc_data (ds + 8)
    if width = 0 ∨ height = 0 ∨ width > 2048 ∨ height > 2048 then acc
    else
      mpcCollectLoop mpc_data (ds + data_len) (width * height) (ds + data_len + 1)
        acc (ds + 20) 0

/-- All opaque pixel-index bytes referenced by any frame. -/
def mpcRefsAll (mpc_data : List Nat) (frame_data_start : Nat)
    (data_offsets : List Nat) : List Nat :=
  data_offsets.foldl (fun acc off => mpcFrameRefs mpc_data frame_data_start acc off) []

/-- Formalisation of claim C5 as stated: the same finder, but a palette
slot counts as used only when the referencing opaque pixel-index byte
itself lies *within the frame's declared byte range* (`off < rle_end`
also required while consuming index bytes). -/
def mpcMarkInnerClaim (data : List Nat) (rle_end total : Nat) :
    Nat → (Nat → Bool) → Nat → Nat → ((Nat → Bool) × Nat × Nat)
  | 0, used, off, pix => (used, off, pix)
  | count + 1, used, off, pix =>
    if pix ≥ total ∨ off ≥ data.length ∨ off ≥ rle_end then (used, off, pix)
    else mpcMarkInnerClaim data rle_end total count
      (setUsed used (data.getD off 0)) (off + 1) (pix + 1)

/-- Outer loop of the claim-side finder. -/
def mpcMarkLoopClaim (data : List Nat) (rle_end total : Nat) :
    Nat → (Nat → Bool) → Nat → Nat → (Nat → Bool)
  | 0, used, _, _ => used
  | fuel + 1, used, off, pix =>
    if off < rle_end ∧ off < data.length ∧ pix < total then
      let byte := data.getD off 0
      if byte > 128 then
        mpcMarkLoopClaim data rle_end total fuel used (off + 1) (pix + (byte - 128))
      else
        let r := mpcMarkInnerClaim data rle_end total byte used (off + 1) pix
        mpcMarkLoopClaim data rle_end total fuel r.1 r.2.1 r.2.2
    else used

/-- Claim-side marking pass for one frame. -/
def markFrameUsedClaim (mpc_data : List Nat) (frame_data_start : Nat)
    (used : Nat → Bool) (off : Nat) : Nat → Bool :=
  let ds := frame_data_start + off
  if ds + 12 > mpc_data.length then used
  else
    let data_len := get_u32_le mpc_data ds
    let width := get_u32_le mpc_data (ds + 4)
    let height := get_u32_le mpc_data (ds + 8)
    if width = 0 ∨ height = 0 ∨ width > 2048 ∨ height > 2048 then used
    else
      mpcMarkLoopClaim mpc_data (ds + data_len) (width * height) (ds + data_len + 1)
        used (ds + 20) 0

/-- Claim-side transparent-index finder: identical to
`find_transparent_index_mpc` except that opaque pixel-index bytes are
only considered within the frame's declared byte range, as the claim's
wording requires. -/
def find_transparent_index_claim (mpc_data : List Nat) (frame_data_start : Nat)
    (data_offsets : List Nat) : Nat :=
  let used := data_offsets.foldl
    (fun used off => markFrameUsedClaim mpc_data frame_data_start used off)
    (fun _ => false)
  firstUnusedLoop used 256 0

-- ===========================================================================
-- MPC → MSF converter core
-- (src/packages/converter/src/bin/mpc2msf.rs `convert_mpc_to_msf`,
--  identical logic in src/packages/converter/src/bin/convert_all.rs)
-- ===========================================================================

/-- Inner loop of `decode_mpc_rle_to_indexed`: copy up to `count` opaque
palette-index bytes into the indexed plane. -/
def mpcDecInner (data : List Nat) (total : Nat) :
    Nat → List Nat → Nat → Nat → (List Nat × Nat × Nat)
  | 0, buf, off, pix => (buf, off, pix)
  | count + 1, buf, off, pix =>
    if pix ≥ total ∨ off ≥ data.length then (buf, off, pix)
    else mpcDecInner data total count (buf.set pix (data.getD off 0)) (off + 1) (pix + 1)

/-- Outer loop of `decode_mpc_rle_to_indexed`. -/
def mpcDecLoop (data : List Nat) (rle_end total : Nat) :
    Nat → List Nat → Nat → Nat → List Nat
  | 0, buf, _, _ => buf
  | fuel + 1, buf, off, pix =>
    if off < rle_end ∧ off < data.length ∧ pix < total then
      let byte := data.getD off 0
      if byte > 128 then
        mpcDecLoop data rle_end total fuel buf (off + 1) (pix + (byte - 128))
      else
        let r := mpcDecInner data total byte buf (off + 1) pix
        mpcDecLoop data rle_end total fuel r.1 r.2.1 r.2.2
    else buf

/-- `decode_mpc_rle_to_indexed`: expand an MPC RLE stream to a
1-byte-per-pixel plane pre-filled with the transparent index. -/
def decode_mpc_rle_to_indexed (data : List Nat)
    (rle_start rle_end width height transparent_idx : Nat) : List Nat :=
  mpcDecLoop data rle_end (width * height) (rle_end + 1)
    (List.replicate (width * height) transparent_idx) rle_start 0

/-- Palette read of the MPC converter (BGRA → RGBA with alpha 255),
stopping at the first entry that runs past the buffer. -/
def readMpcPaletteLoop (data : List Nat) : Nat → Nat → List Rgba → List Rgba
  | 0, _, pal => pal
  | n + 1, i, pal =>
    let po := 128 + i * 4
    if po + 4 > data.length then pal
    else readMpcPaletteLoop data n (i + 1)
      (pal ++ [⟨data.getD (po + 2) 0, data.getD (po + 1) 0, data.getD po 0, 255⟩])

/-- `readMpcPaletteLoop` from the start of the palette region. -/
def readMpcPalette (data : List Nat) (color_count : Nat) : List Rgba :=
  readMpcPaletteLoop data color_count 0 []

/-- Frame-offset read of the MPC converter, stopping at the first entry
that runs past the buffer. -/
def readMpcOffsetsLoop (data : List Nat) (offsets_start : Nat) :
    Nat → Nat → List Nat → List Nat
  | 0, _, acc => acc
  | n + 1, i, acc =>
    let o := offsets_start + i * 4
    if o + 4 > data.length then acc
    else readMpcOffsetsLoop data offsets_start n (i + 1) (acc ++ [get_u32_le data o])

/-- The `while palette.len() <= T { palette.push([0,0,0,255]) }` loop of
the transparent-index adoption (fuel `T + 1` dominates the iteration
count since the palette grows by one entry per iteration). -/
def extendPaletteLoop (T : Nat) : Nat → List Rgba → List Rgba
  | 0, pal => pal
  | n + 1, pal =>
    if pal.length ≤ T then extendPaletteLoop T n (pal ++ [⟨0, 0, 0, 255⟩]) else pal

/-- Palette mutation when the encoder adopts transparent index `T`:
in range, only the alpha byte of entry `T` is zeroed
(`palette[transparent_idx][3] = 0`); out of range, the palette is grown
with opaque black and entry `T` is then set to `(0,0,0,0)`. -/
def mutatePalette (palette : List Rgba) (T : Nat) : List Rgba :=
  if T < palette.length then
    palette.set T { palette.getD T ⟨0, 0, 0, 0⟩ with a := 0 }
  else
    (extendPaletteLoop T (T + 1) palette).set T ⟨0, 0, 0, 0⟩

/-- MSF frame-table entry (`FrameEntry` of the converter binaries,
`MsfFrameEntry` of the engine decoder). -/
structure FrameEntry where
  offset_x : Int
  offset_y : Int
  width : Nat
  height : Nat
  data_offset : Nat
  data_length : Nat
deriving DecidableEq, Repr

/-- Per-frame staging of the MPC converter: truncated or out-of-range
frames become the empty entry with no bytes, valid frames are
RLE-expanded to their indexed plane. -/
def mpcFrameRaw (mpc_data : List Nat) (frame_data_start transparent_idx : Nat)
    (data_offsets : List Nat) (i : Nat) : FrameEntry × List Nat :=
  if i ≥ data_offsets.length then (⟨0, 0, 0, 0, 0, 0⟩, [])
  else
    let ds := frame_data_start + data_offsets.getD i 0
    if ds + 12 > mpc_data.length then (⟨0, 0, 0, 0, 0, 0⟩, [])
    else
      let data_len := get_u32_le mpc_data ds
      let width := get_u32_le mpc_data (ds + 4) % 65536
      let height := get_u32_le mpc_data (ds + 8) % 65536
      if width = 0 ∨ height = 0 ∨ width > 2048 ∨ height > 2048 then
        (⟨0, 0, 0, 0, 0, 0⟩, [])
      else
        (⟨0, 0, width, height, 0, 0⟩,
          decode_mpc_rle_to_indexed mpc_data (ds + 20) (ds + data_len)
            width height transparent_idx)

/-- The concatenation phase shared by both converters: walk the staged
frames in order, stamping `data_offset = concat.len() as u32` and
`data_length = data.len() as u32` before appending to the blob. -/
def assignOffsets (raws : List (FrameEntry × List Nat)) : List FrameEntry × List Nat :=
  raws.foldl (fun acc fr =>
    (acc.1 ++ [{ fr.1 with
        data_offset := acc.2.length % 4294967296
        data_length := fr.2.length % 4294967296 }],
      acc.2 ++ fr.2)) ([], [])

/-- Everything `convert_mpc_to_msf` computes before serialisation. -/
structure MpcParts where
  global_width : Nat
  global_height : Nat
  frame_count : Nat
  direction : Nat
  fps : Nat
  left : Int
  bottom : Int
  palette : List Rgba
  transparent_idx : Nat
  entries : List FrameEntry
  blob : List Nat
deriving DecidableEq, Repr

/-- ASCII bytes of `"MPC File Ver"`. -/
def mpcSigBytes : List Nat := [77, 80, 67, 32, 70, 105, 108, 101, 32, 86, 101, 114]

/-- `convert_mpc_to_msf` up to (but not including) zstd compression and
byte serialisation: header fields, mutated palette, adopted transparent
index, frame table and decompressed blob.  The zstd call and the final
byte assembly consume these values unchanged. -/
def convert_mpc_to_msf_parts (mpc_data : List Nat) : Option MpcParts :=
  if mpc_data.length < 160 then none
  else if mpc_data.take 12 ≠ mpcSigBytes then none
  else
    let global_width := get_u32_le mpc_data 68 % 65536
    let global_height := get_u32_le mpc_data 72 % 65536
    let frame_count := get_u32_le mpc_data 76 % 65536
    let direction := get_u32_le mpc_data 80 % 256
    let color_count := get_u32_le mpc_data 84
    let interval := get_u32_le mpc_data 88 % 65536
    let raw_bottom := get_i32_le mpc_data 92
    let left : Int := (global_width / 2 : Nat)
    let bottom : Int :=
      if global_height ≥ 16 then toI16 ((global_height : Int) - 16 - raw_bottom)
      else toI16 (16 - (global_height : Int) - raw_bottom)
    let fps := if interval > 0 then min (1000 / interval) 255 else 15
    let palette := readMpcPalette mpc_data color_count
    let offsets_start := 128 + color_count * 4
    let data_offsets := readMpcOffsetsLoop mpc_data offsets_start frame_count 0 []
    let frame_data_start := offsets_start + frame_count * 4
    let transparent_idx := find_transparent_index_mpc mpc_data frame_data_start data_offsets
    let palette2 := mutatePalette palette transparent_idx
    let raws := (List.range frame_count).map
      (fun i => mpcFrameRaw mpc_data frame_data_start transparent_idx data_offsets i)
    let ec := assignOffsets raws
    some ⟨global_width, global_height, frame_count, direction, fps, left, bottom,
      palette2, transparent_idx, ec.1, ec.2⟩

-- ===========================================================================
-- ASF → MSF converter core
-- (src/packages/asf2msf/src/main.rs `convert_asf_to_msf`)
-- ===========================================================================

/-- ASCII bytes of `"ASF 1.0"`. -/
def asfSigBytes : List Nat := [65, 83, 70, 32, 49, 46, 48]

/-- Palette read of the ASF converter (BGRA → RGBA with alpha 255),
stopping at the first entry that runs past the buffer; the running
offset is threaded on so the frame-index read continues from it. -/
def readAsfPaletteLoop (data : List Nat) : Nat → Nat → List Rgba → (List Rgba × Nat)
  | 0, off, pal => (pal, off)
  | n + 1, off, pal =>
    if off + 4 > data.length then (pal, off)
    else readAsfPaletteLoop data n (off + 4)
      (pal ++ [⟨data.getD (off + 2) 0, data.getD (off + 1) 0, data.getD off 0, 255⟩])

/-- Frame-index read of the ASF converter: `(offset, length)` pairs of
`i32` values cast with `as usize`, stopping at the first truncated
entry. -/
def readAsfFrameIdxLoop (data : List Nat) : Nat → Nat → List (Nat × Nat) → List (Nat × Nat)
  | 0, _, acc => acc
  | n + 1, off, acc =>
    if off + 8 > data.length then acc
    else readAsfFrameIdxLoop data n (off + 8)
      (acc ++ [(i32AsUsize (get_i32_le data off), i32AsUsize (get_i32_le data (off + 4)))])

/-- Inner loop of the ASF RLE decoder of `asf2msf` (`decode_asf_rle_frame`):
one `(count, alpha)` run.  A transparent run advances the byte cursor of
the RGBA canvas by 4 per pixel; an opaque run additionally consumes one
palette-index byte per pixel while the stream lasts (when the stream is
exhausted the remaining iterations of the run do nothing). -/
def asfRleInner (data : List Nat) (palette : List Rgba) (max_pixels alpha : Nat) :
    Nat → List Nat → Nat → Nat → (List Nat × Nat × Nat)
  | 0, pixels, off, pix => (pixels, off, pix)
  | count + 1, pixels, off, pix =>
    if pix ≥ max_pixels then (pixels, off, pix)
    else if alpha = 0 then
      asfRleInner data palette max_pixels alpha count pixels off (pix + 4)
    else if off < data.length then
      let ci := data.getD off 0
      let pixels' :=
        if ci < palette.length then
          let c := palette.getD ci ⟨0, 0, 0, 0⟩
          ((((pixels.set pix c.r).set (pix + 1) c.g).set (pix + 2) c.b).set (pix + 3) alpha)
        else pixels
      asfRleInner data palette max_pixels alpha count pixels' (off + 1) (pix + 4)
    else asfRleInner data palette max_pixels alpha count pixels off pix

/-- Outer loop of the ASF RLE decoder: read a `(count, alpha)` header
while the declared frame range, the buffer and the pixel budget allow. -/
def asfRleLoop (data : List Nat) (palette : List Rgba) (data_end max_pixels : Nat) :
    Nat → List Nat → Nat → Nat → List Nat
  | 0, pixels, _, _ => pixels
  | fuel + 1, pixels, off, pix =>
    if off < data_end ∧ off + 1 < data.length ∧ pix < max_pixels then
      let cnt := data.getD off 0
      let alpha := data.getD (off + 1) 0
      let r := asfRleInner data palette max_pixels alpha cnt pixels (off + 2) pix
      asfRleLoop data palette data_end max_pixels fuel r.1 r.2.1 r.2.2
    else pixels

/-- `decode_asf_rle_frame` of `asf2msf`: expand one frame's RLE stream
into a canvas-sized RGBA buffer. -/
def decode_asf_rle_frame (data : List Nat) (palette : List Rgba)
    (offset length width height : Nat) (pixels : List Nat) : List Nat :=
  asfRleLoop data palette (offset + length) (width * height * 4)
    (offset + length + 1) pixels offset 0

/-- Per-frame staging of the ASF converter: RLE-decode to a canvas
buffer, take the tight bbox, crop, and quantize to Indexed8Alpha8; an
all-transparent frame becomes the empty entry with no bytes. -/
def asfFrameRaw (asf_data : List Nat) (palette : List Rgba) (w h : Nat)
    (fentries : List (Nat × Nat)) (i : Nat) : FrameEntry × List Nat :=
  let pixels0 := List.replicate (w * h * 4) 0
  let pixels :=
    if i < fentries.length then
      decode_asf_rle_frame asf_data palette (fentries.getD i (0, 0)).1
        (fentries.getD i (0, 0)).2 w h pixels0
    else pixels0
  let bb := compute_tight_bbox pixels w h
  let ox := bb.1
  let oy := bb.2.1
  let bw := bb.2.2.1
  let bh := bb.2.2.2
  if bw = 0 ∨ bh = 0 then (⟨0, 0, 0, 0, 0, 0⟩, [])
  else
    let cropped := extract_bbox_pixels pixels w (i32AsUsize ox) (i32AsUsize oy) bw bh
    (⟨ox, oy, bw, bh, 0, 0⟩, rgba_to_indexed_alpha cropped palette)

/-- Everything `convert_asf_to_msf` computes before serialisation. -/
structure AsfParts where
  width : Nat
  height : Nat
  frame_count : Nat
  directions : Nat
  fps : Nat
  left : Int
  bottom : Int
  palette : List Rgba
  entries : List FrameEntry
  blob : List Nat
deriving DecidableEq, Repr

/-- `convert_asf_to_msf` up to (but not including) zstd compression and
byte serialisation. -/
def convert_asf_to_msf_parts (asf_data : List Nat) : Option AsfParts :=
  if asf_data.length < 80 then none
  else if asf_data.take 7 ≠ asfSigBytes then none
  else
    let width := i32AsU16 (get_i32_le asf_data 16)
    let height := i32AsU16 (get_i32_le asf_data 20)
    let frame_count := i32AsU16 (get_i32_le asf_data 24)
    let directions := i32AsU8 (get_i32_le asf_data 28)
    let color_count := i32AsUsize (get_i32_le asf_data 32)
    let interval := i32AsU16 (get_i32_le asf_data 36)
    let left := toI16 (get_i32_le asf_data 40)
    let bottom := toI16 (get_i32_le asf_data 44)
    let fps := if interval > 0 then min (1000 / interval) 255 else 15
    let palRes := readAsfPaletteLoop asf_data color_count 64 []
    let fentries := readAsfFrameIdxLoop asf_data frame_count palRes.2 []
    let raws := (List.range frame_count).map
      (fun i => asfFrameRaw asf_data palRes.1 width height fentries i)
    let ec := assignOffsets raws
    some ⟨width, height, frame_count, directions, fps, left, bottom,
      palRes.1, ec.1, ec.2⟩

-- ===========================================================================
-- Engine ASF decoder
-- (src/packages/engine-wasm/src/asf_decoder.rs `decode_asf_frames`,
--  `decode_rle_frame`)
-- ===========================================================================

/-- The `i32 as u32` cast. -/
def i32AsU32 (x : Int) : Nat := (x % 4294967296).toNat

/-- Result of the engine ASF decoder: `fail` models the `return 0`
paths, `panic` models an out-of-bounds `Vec` index aborting the
process. -/
inductive AsfDecodeResult where
  | panic : AsfDecodeResult
  | fail : AsfDecodeResult
  | ok (frames : Nat) (pixels : List Nat) : AsfDecodeResult
deriving DecidableEq, Repr

/-- Palette read of the engine ASF decoder: a `[u8; 256*4]` zero array
(modelled as a total function defaulting to transparent black) filled
BGRA → RGBA for `min(color_count, 256)` entries, stopping at the first
truncated entry; the running offset is threaded on. -/
def readWasmAsfPaletteLoop (data : List Nat) : Nat → Nat → Nat → (Nat → Rgba) → ((Nat → Rgba) × Nat)
  | 0, _, off, pal => (pal, off)
  | n + 1, i, off, pal =>
    if off + 4 > data.length then (pal, off)
    else readWasmAsfPaletteLoop data n (i + 1) (off + 4)
      (fun k => if k = i then
          ⟨data.getD (off + 2) 0, data.getD (off + 1) 0, data.getD off 0, 255⟩
        else pal k)

/-- Inner loop of the engine `decode_rle_frame`: one `(count, alpha)`
run; the pixel cursor advances by 4 for every iterated pixel, opaque
pixels additionally consume a palette-index byte while the buffer
lasts (an index ≥ 256 would paint magenta). -/
def wasmRleInner (data : List Nat) (pal : Nat → Rgba) (max_pixels alpha : Nat) :
    Nat → List Nat → Nat → Nat → (List Nat × Nat × Nat)
  | 0, pixels, off, pix => (pixels, off, pix)
  | count + 1, pixels, off, pix =>
    if pix ≥ max_pixels then (pixels, off, pix)
    else if alpha = 0 then
      wasmRleInner data pal max_pixels alpha count pixels off (pix + 4)
    else
      let st :=
        if off < data.length then
          let ci := data.getD off 0
          if ci < 256 then
            let c := pal ci
            (((((pixels.set pix c.r).set (pix + 1) c.g).set (pix + 2) c.b).set
              (pix + 3) alpha), off + 1)
          else
            (((((pixels.set pix 255).set (pix + 1) 0).set (pix + 2) 255).set
              (pix + 3) 255), off + 1)
        else (pixels, off)
      wasmRleInner data pal max_pixels alpha count st.1 st.2 (pix + 4)

/-- Outer loop of the engine `decode_rle_frame`. -/
def wasmRleLoop (data : List Nat) (pal : Nat → Rgba) (data_end max_pixels : Nat) :
    Nat → List Nat → Nat → Nat → List Nat
  | 0, pixels, _, _ => pixels
  | fuel + 1, pixels, off, pix =>
    if off < data_end ∧ off + 1 < data.length ∧ pix < max_pixels then
      let cnt := data.getD off 0
      let alpha := data.getD (off + 1) 0
      let r := wasmRleInner data pal max_pixels alpha cnt pixels (off + 2) pix
      wasmRleLoop data pal data_end max_pixels fuel r.1 r.2.1 r.2.2
    else pixels

/-- Engine `decode_rle_frame`: expand one frame into its canvas-sized
slice of the output buffer. -/
def wasm_decode_rle_frame (data : List Nat) (pal : Nat → Rgba)
    (offset length width height : Nat) (pixels : List Nat) : List Nat :=
  wasmRleLoop data pal (offset + length) (width * height * 4)
    (offset + length + 1) pixels offset 0

/-- The `for i in 0..frame_count` decode loop of `decode_asf_frames`:
`frame_offsets[i]` / `frame_lengths[i]` are unguarded `Vec` indexes, so
an `i` beyond the (possibly truncated) frame index aborts the process —
modelled as `none`. -/
def wasmAsfFramesLoop (data : List Nat) (pal : Nat → Rgba)
    (fentries : List (Nat × Nat)) (width height : Nat) :
    Nat → Nat → List Nat → Option (List Nat)
  | 0, _, acc => some acc
  | n + 1, i, acc =>
    if i < fentries.length then
      let fe := fentries.getD i (0, 0)
      let frame := wasm_decode_rle_frame data pal fe.1 fe.2 width height
        (List.replicate (width * height * 4) 0)
      wasmAsfFramesLoop data pal fentries width height n (i + 1) (acc ++ frame)
    else none

/-- Engine `decode_asf_frames` of `asf_decoder.rs`. -/
def decode_asf_frames (data : List Nat) : AsfDecodeResult :=
  if data.length < 80 then .fail
  else if data.take 7 ≠ asfSigBytes then .fail
  else
    let width := i32AsUsize (get_i32_le data 16)
    let height := i32AsUsize (get_i32_le data 20)
    let frame_count := i32AsU32 (get_i32_le data 24)
    let color_count := i32AsUsize (get_i32_le data 32)
    let palRes := readWasmAsfPaletteLoop data (min color_count 256) 0 64 (fun _ => ⟨0, 0, 0, 0⟩)
    let fentries := readAsfFrameIdxLoop data frame_count palRes.2 []
    match wasmAsfFramesLoop data palRes.1 fentries width height frame_count 0 [] with
    | none => .panic
    | some pixels => .ok frame_count pixels

-- ===========================================================================
-- MSF codec (engine)
-- (src/packages/engine-wasm/src/msf_codec.rs `encode_msf`,
--  `parse_msf_header`, `decode_msf_frames`)
-- ===========================================================================

/-- The three MSF pixel formats. -/
inductive PixelFormat where
  | rgba8
  | indexed8
  | indexed8alpha8
deriving DecidableEq, Repr

/-- Wire tag of a pixel format (`PixelFormat as u8`). -/
def PixelFormat.toByte : PixelFormat → Nat
  | .rgba8 => 0
  | .indexed8 => 1
  | .indexed8alpha8 => 2

/-- `rgba_to_indexed` of the engine encoder: one output byte per pixel,
transparent pixels map to index 0. -/
def rgba_to_indexed (pixels : List Nat) (palette : List Rgba) : List Nat :=
  (List.range (pixels.length / 4)).foldl (fun acc i =>
    let r := pixels.getD (i * 4) 0
    let g := pixels.getD (i * 4 + 1) 0
    let b := pixels.getD (i * 4 + 2) 0
    let a := pixels.getD (i * 4 + 3) 0
    if a = 0 then acc ++ [0]
    else acc ++ [bestLoop r g b palette 0 0 4294967295]) []

/-- `MsfEncodeInput` of the engine encoder. -/
structure MsfEncodeInput where
  canvas_width : Nat
  canvas_height : Nat
  frame_count : Nat
  directions : Nat
  fps : Nat
  anchor_x : Int
  anchor_y : Int
  pixel_format : PixelFormat
  palette : List Rgba
  frame_pixels : List (List Nat)
deriving Repr

/-- Phase 1 of `encode_msf` for one frame: `input.frame_pixels[i]` is an
unguarded `Vec` index (`none` models the panic); a frame with an empty
tight bbox becomes the empty entry, others are cropped and converted
per the target pixel format. -/
def encodeFrameRaw (input : MsfEncodeInput) (i : Nat) : Option (FrameEntry × List Nat) :=
  if i < input.frame_pixels.length then
    let pixels := input.frame_pixels.getD i []
    let bb := compute_tight_bbox pixels input.canvas_width input.canvas_height
    let ox := bb.1
    let oy := bb.2.1
    let w := bb.2.2.1
    let h := bb.2.2.2
    if w = 0 ∨ h = 0 then some (⟨0, 0, 0, 0, 0, 0⟩, [])
    else
      let cropped := extract_bbox_pixels pixels input.canvas_width
        (i32AsUsize ox) (i32AsUsize oy) w h
      let frame_data :=
        match input.pixel_format with
        | .indexed8 => rgba_to_indexed cropped input.palette
        | .indexed8alpha8 => rgba_to_indexed_alpha cropped input.palette
        | .rgba8 => cropped
      some (⟨ox, oy, w, h, 0, 0⟩, frame_data)
  else none

/-- Phase 1 of `encode_msf` over all frames. -/
def encodeFramesLoop (input : MsfEncodeInput) :
    Nat → Nat → List (FrameEntry × List Nat) → Option (List (FrameEntry × List Nat))
  | 0, _, acc => some acc
  | n + 1, i, acc =>
    match encodeFrameRaw input i with
    | none => none
    | some fr => encodeFramesLoop input n (i + 1) (acc ++ [fr])

/-- ASCII bytes of the `MSF1` magic. -/
def msf1MagicBytes : List Nat := [77, 83, 70, 49]

/-- ASCII bytes of the `MSF2` magic. -/
def msf2MagicBytes : List Nat := [77, 83, 70, 50]

/-- ASCII bytes of the `END\0` sentinel chunk id. -/
def endChunkIdBytes : List Nat := [69, 78, 68, 0]

/-- Serialisation of one 16-byte frame-table entry. -/
def frameEntryBytes (e : FrameEntry) : List Nat :=
  i16le e.offset_x ++ i16le e.offset_y ++ u16le e.width ++ u16le e.height ++
    u32le e.data_offset ++ u32le e.data_length

/-- The first 28 bytes of an encoded MSF1 file: magic, version 1,
flags 0 (uncompressed in the engine encoder), the 16-byte header, and
the 4-byte pixel-format block. -/
def msfPrefix28 (input : MsfEncodeInput) : List Nat :=
  msf1MagicBytes ++ u16le 1 ++ u16le 0 ++
    u16le input.canvas_width ++ u16le input.canvas_height ++
    u16le input.frame_count ++ [input.directions, input.fps] ++
    i16le input.anchor_x ++ i16le input.anchor_y ++ [0, 0, 0, 0] ++
    [input.pixel_format.toByte] ++ u16le (input.palette.length % 65536) ++ [0]

/-- Engine `encode_msf`: phase 1 stages the frames, phase 2 assigns
blob offsets, and the output is the preamble, header, pixel-format
block, palette, frame table, `END` sentinel and the (uncompressed)
blob. -/
def encode_msf (input : MsfEncodeInput) : Option (List Nat) :=
  match encodeFramesLoop input input.frame_count 0 [] with
  | none => none
  | some raws =>
    let ec := assignOffsets raws
    some (msfPrefix28 input ++
      (input.palette.map (fun e => [e.r, e.g, e.b, e.a])).flatten ++
      (ec.1.map frameEntryBytes).flatten ++
      endChunkIdBytes ++ u32le 0 ++
      ec.2)

/-- `MsfHeader` returned by the engine `parse_msf_header`. -/
structure MsfHeader where
  canvas_width : Nat
  canvas_height : Nat
  frame_count : Nat
  directions : Nat
  fps : Nat
  anchor_x : Int
  anchor_y : Int
  pixel_format : Nat
  palette_size : Nat
  frames_per_direction : Nat
  total_individual_pixel_bytes : Nat
deriving DecidableEq, Repr

/-- The frame-table scan of `parse_msf_header` accumulating
`total_individual_pixel_bytes` (empty frames count 4 bytes). -/
def parseTotalLoop (data : List Nat) (frame_table_start : Nat) : Nat → Nat → Nat → Nat
  | 0, _, acc => acc
  | n + 1, i, acc =>
    let ft := frame_table_start + i * 16
    let w := u16fromLe (data.getD (ft + 4) 0) (data.getD (ft + 5) 0)
    let h := u16fromLe (data.getD (ft + 6) 0) (data.getD (ft + 7) 0)
    parseTotalLoop data frame_table_start n (i + 1)
      ((acc + (if 0 < w ∧ 0 < h then w * h * 4 else 4)) % 4294967296)

/-- Engine `parse_msf_header`. -/
def parse_msf_header (data : List Nat) : Option MsfHeader :=
  if data.length < 28 then none
  else if data.take 4 ≠ msf1MagicBytes then none
  else
    let canvas_width := u16fromLe (data.getD 8 0) (data.getD 9 0)
    let canvas_height := u16fromLe (data.getD 10 0) (data.getD 11 0)
    let frame_count := u16fromLe (data.getD 12 0) (data.getD 13 0)
    let directions := data.getD 14 0
    let fps := data.getD 15 0
    let anchor_x := i16fromLe (data.getD 16 0) (data.getD 17 0)
    let anchor_y := i16fromLe (data.getD 18 0) (data.getD 19 0)
    if data.length < 28 then none
    else
      let pixel_format := data.getD 24 0
      let palette_size := u16fromLe (data.getD 25 0) (data.getD 26 0)
      let frames_per_direction :=
        if 0 < directions then max (frame_count / directions) 1 else max frame_count 1
      let frame_table_start := 28 + palette_size * 4
      let total :=
        if frame_table_start + frame_count * 16 ≤ data.length then
          parseTotalLoop data frame_table_start frame_count 0 0
        else 0
      some ⟨canvas_width, canvas_height, frame_count, directions, fps, anchor_x,
        anchor_y, pixel_format, palette_size, frames_per_direction, total⟩

/-- Palette read of the MSF decoders: a `[[u8;4]; 256]` zero array
filled RGBA for `min(palette_size, 256)` entries, stopping at the first
truncated entry. -/
def readMsfPaletteLoop (data : List Nat) (palette_start : Nat) :
    Nat → Nat → (Nat → Rgba) → (Nat → Rgba)
  | 0, _, pal => pal
  | n + 1, i, pal =>
    let po := palette_start + i * 4
    if po + 4 > data.length then pal
    else readMsfPaletteLoop data palette_start n (i + 1)
      (fun k => if k = i then
          ⟨data.getD po 0, data.getD (po + 1) 0, data.getD (po + 2) 0,
            data.getD (po + 3) 0⟩
        else pal k)

/-- Frame-table read of `decode_msf_frames` (bounds already checked by
the caller, so all reads are in range). -/
def readMsfFrameTable (data : List Nat) : Nat → Nat → List FrameEntry → List FrameEntry
  | 0, _, acc => acc
  | n + 1, ft, acc =>
    readMsfFrameTable data n (ft + 16) (acc ++
      [⟨i16fromLe (data.getD ft 0) (data.getD (ft + 1) 0),
        i16fromLe (data.getD (ft + 2) 0) (data.getD (ft + 3) 0),
        u16fromLe (data.getD (ft + 4) 0) (data.getD (ft + 5) 0),
        u16fromLe (data.getD (ft + 6) 0) (data.getD (ft + 7) 0),
        u32fromLe (data.getD (ft + 8) 0) (data.getD (ft + 9) 0)
          (data.getD (ft + 10) 0) (data.getD (ft + 11) 0),
        u32fromLe (data.getD (ft + 12) 0) (data.getD (ft + 13) 0)
          (data.getD (ft + 14) 0) (data.getD (ft + 15) 0)⟩])

/-- Extension-chunk walk of the MSF decoders: skip `(id, len, payload)`
triples until the `END\0` id; `none` models the `return 0` on a walk
that runs past the buffer.  The fuel dominates the iteration count
(each iteration advances the cursor by at least 8 and must stay within
the buffer). -/
def skipChunksLoop (data : List Nat) : Nat → Nat → Option Nat
  | 0, _ => none
  | fuel + 1, off =>
    if off + 8 > data.length then none
    else
      let cid := [data.getD off 0, data.getD (off + 1) 0,
        data.getD (off + 2) 0, data.getD (off + 3) 0]
      let clen := u32fromLe (data.getD (off + 4) 0) (data.getD (off + 5) 0)
        (data.getD (off + 6) 0) (data.getD (off + 7) 0)
      if cid = endChunkIdBytes then some (off + 8)
      else skipChunksLoop data fuel (off + 8 + clen)

/-- Per-frame compositing of `decode_msf_frames`, Rgba8 arm: row-wise
copy into the canvas slice when both row ranges are in bounds. -/
def msfDrawRgba8 (blob : List Nat) (canvas_width frame_pixel_start blob_off fw fh ox oy : Nat)
    (pixels : List Nat) : List Nat :=
  (List.range fh).foldl (fun acc y =>
    let src_row := blob_off + y * fw * 4
    let dst_row := frame_pixel_start + ((oy + y) * canvas_width + ox) * 4
    let row_bytes := fw * 4
    if src_row + row_bytes ≤ blob.length ∧ dst_row + row_bytes ≤ acc.length then
      (List.range row_bytes).foldl
        (fun acc k => acc.set (dst_row + k) (blob.getD (src_row + k) 0)) acc
    else acc) pixels

/-- Per-frame compositing of `decode_msf_frames`, Indexed8 arm: palette
lookup per pixel, skipping entries whose palette alpha is 0. -/
def msfDrawIndexed8 (blob : List Nat) (pal : Nat → Rgba)
    (canvas_width frame_pixel_start blob_off fw fh ox oy : Nat)
    (pixels : List Nat) : List Nat :=
  (List.range fh).foldl (fun acc y =>
    (List.range fw).foldl (fun acc x =>
      let src := blob_off + y * fw + x
      if src ≥ blob.length then acc
      else
        let ci := blob.getD src 0
        let dst := frame_pixel_start + ((oy + y) * canvas_width + ox + x) * 4
        if dst + 4 ≤ acc.length ∧ ci < 256 then
          let c := pal ci
          if 0 < c.a then
            (((acc.set dst c.r).set (dst + 1) c.g).set (dst + 2) c.b).set (dst + 3) c.a
          else acc
        else acc) acc) pixels

/-- Per-frame compositing of `decode_msf_frames`, Indexed8Alpha8 arm:
2 bytes per pixel (index, alpha); alpha 0 leaves the canvas untouched. -/
def msfDrawIndexed8Alpha8 (blob : List Nat) (pal : Nat → Rgba)
    (canvas_width frame_pixel_start blob_off fw fh ox oy : Nat)
    (pixels : List Nat) : List Nat :=
  (List.range fh).foldl (fun acc y =>
    (List.range fw).foldl (fun acc x =>
      let src := blob_off + (y * fw + x) * 2
      if src + 1 ≥ blob.length then acc
      else
        let ci := blob.getD src 0
        let alpha := blob.getD (src + 1) 0
        if alpha = 0 then acc
        else
          let dst := frame_pixel_start + ((oy + y) * canvas_width + ox + x) * 4
          if dst + 4 ≤ acc.length ∧ ci < 256 then
            let c := pal ci
            (((acc.set dst c.r).set (dst + 1) c.g).set (dst + 2) c.b).set (dst + 3) alpha
          else acc) acc) pixels

/-- The per-frame loop of `decode_msf_frames`: empty or out-of-blob
frames leave their canvas slice fully transparent. -/
def msfFramesFold (blob : List Nat) (pal : Nat → Rgba) (pf : PixelFormat)
    (canvas_width frame_size : Nat) (entries : List FrameEntry) (pixels : List Nat) : List Nat :=
  (List.range entries.length).foldl (fun acc i =>
    let e := entries.getD i ⟨0, 0, 0, 0, 0, 0⟩
    if e.width = 0 ∨ e.height = 0 then acc
    else if e.data_offset + e.data_length > blob.length then acc
    else
      let fps := i * frame_size
      let ox := i32AsUsize e.offset_x
      let oy := i32AsUsize e.offset_y
      match pf with
      | .rgba8 => msfDrawRgba8 blob canvas_width fps e.data_offset e.width e.height ox oy acc
      | .indexed8 =>
        msfDrawIndexed8 blob pal canvas_width fps e.data_offset e.width e.height ox oy acc
      | .indexed8alpha8 =>
        msfDrawIndexed8Alpha8 blob pal canvas_width fps e.data_offset e.width e.height ox oy acc)
    pixels

/-- Engine `decode_msf_frames` (composited-canvas decoder).  The zstd
decompressor of the external `ruzstd` crate is passed in as a function;
it is only consulted when flags bit 0 is set.  `none` models the
`return 0` failure paths; success returns the frame count and the
composited canvas pixels. -/
def decode_msf_frames (zd : List Nat → Option (List Nat)) (data : List Nat) :
    Option (Nat × List Nat) :=
  if data.length < 28 then none
  else if data.take 4 ≠ msf1MagicBytes then none
  else
    let flags := u16fromLe (data.getD 6 0) (data.getD 7 0)
    let canvas_width := u16fromLe (data.getD 8 0) (data.getD 9 0)
    let canvas_height := u16fromLe (data.getD 10 0) (data.getD 11 0)
    let frame_count := u16fromLe (data.getD 12 0) (data.getD 13 0)
    let pixel_format_byte := data.getD 24 0
    let pfOpt : Option PixelFormat :=
      if pixel_format_byte = 0 then some .rgba8
      else if pixel_format_byte = 1 then some .indexed8
      else if pixel_format_byte = 2 then some .indexed8alpha8
      else none
    match pfOpt with
    | none => none
    | some pf =>
      let palette_size := u16fromLe (data.getD 25 0) (data.getD 26 0)
      let pal := readMsfPaletteLoop data 28 (min palette_size 256) 0 (fun _ => ⟨0, 0, 0, 0⟩)
      let frame_table_start := 28 + palette_size * 4
      if frame_table_start + frame_count * 16 > data.length then none
      else
        let entries := readMsfFrameTable data frame_count frame_table_start []
        match skipChunksLoop data (data.length + 1) (frame_table_start + frame_count * 16) with
        | none => none
        | some blob_start =>
          let blobOpt : Option (List Nat) :=
            if flags % 2 = 1 then zd (data.drop blob_start)
            else some (data.drop blob_start)
          match blobOpt with
          | none => none
          | some blob =>
            let frame_size := canvas_width * canvas_height * 4
            let pixels0 := List.replicate (frame_size * frame_count) 0
            some (frame_count, msfFramesFold blob pal pf canvas_width frame_size entries pixels0)

-- ===========================================================================
-- Converter verifier's MSF decoder
-- (src/packages/converter/src/bin/verify.rs `decode_msf_to_rgba`)
-- ===========================================================================

/-- Per-frame decode of `decode_msf_to_rgba`: Indexed8Alpha8 pixels from
the frame's blob slice composited into a fresh canvas-sized RGBA
buffer. -/
def verifyMsfFrame (blob : List Nat) (pal : Nat → Rgba) (canvas_w canvas_h : Nat)
    (e : FrameEntry) : List Nat :=
  let pixels0 := List.replicate (canvas_w * canvas_h * 4) 0
  if 0 < e.width ∧ 0 < e.height then
    if e.data_offset + e.data_length ≤ blob.length then
      let raw := (blob.drop e.data_offset).take e.data_length
      let ox := i32AsUsize e.offset_x
      let oy := i32AsUsize e.offset_y
      (List.range e.height).foldl (fun acc y =>
        (List.range e.width).foldl (fun acc x =>
          let src := (y * e.width + x) * 2
          if src + 1 ≥ raw.length then acc
          else
            let ci := raw.getD src 0
            let alpha := raw.getD (src + 1) 0
            if alpha = 0 then acc
            else
              let dst := ((oy + y) * canvas_w + ox + x) * 4
              if dst + 4 ≤ acc.length ∧ ci < 256 then
                let c := pal ci
                (((acc.set dst c.r).set (dst + 1) c.g).set (dst + 2) c.b).set
                  (dst + 3) alpha
              else acc) acc) pixels0
    else pixels0
  else pixels0

/-- `decode_msf_to_rgba` of the converter verifier: accepts only the
`MSF2` magic and only pixel format 2 (Indexed8Alpha8); returns the
canvas size, frame count and per-frame canvas-sized RGBA buffers. -/
def decode_msf_to_rgba (zd : List Nat → Option (List Nat)) (data : List Nat) :
    Option (Nat × Nat × Nat × List (List Nat)) :=
  if data.length < 28 ∨ data.take 4 ≠ msf2MagicBytes then none
  else
    let flags := u16fromLe (data.getD 6 0) (data.getD 7 0)
    let canvas_w := u16fromLe (data.getD 8 0) (data.getD 9 0)
    let canvas_h := u16fromLe (data.getD 10 0) (data.getD 11 0)
    let frame_count := u16fromLe (data.getD 12 0) (data.getD 13 0)
    let pixel_format := data.getD 24 0
    let palette_size := u16fromLe (data.getD 25 0) (data.getD 26 0)
    if pixel_format ≠ 2 then none
    else
      let pal := readMsfPaletteLoop data 28 (min palette_size 256) 0 (fun _ => ⟨0, 0, 0, 0⟩)
      let frame_table_start := 28 + palette_size * 4
      if frame_table_start + frame_count * 16 > data.length then none
      else
        let entries := readMsfFrameTable data frame_count frame_table_start []
        match skipChunksLoop data (data.length + 1) (frame_table_start + frame_count * 16) with
        | none => none
        | some blob_start =>
          let blobOpt : Option (List Nat) :=
            if flags % 2 = 1 then zd (data.drop blob_start)
            else some (data.drop blob_start)
          match blobOpt with
          | none => none
          | some blob =>
            some (canvas_w, canvas_h, frame_count,
              entries.map (fun e => verifyMsfFrame blob pal canvas_w canvas_h e))

-- ===========================================================================
-- verify_mpc's MPC decoder RLE loop
-- (src/packages/asf2msf/src/bin/verify_mpc.rs `decode_mpc_to_rgba`,
--  lines 110-140)
-- ===========================================================================

/-- Inner loop of the `verify_mpc` MPC RLE decoder: consume up to
`count` opaque palette-index bytes, writing RGBA through the palette. -/
def vmRleInner (data : List Nat) (pal : Nat → Rgba) (total : Nat) :
    Nat → List Nat → Nat → Nat → (List Nat × Nat × Nat)
  | 0, pixels, off, pix => (pixels, off, pix)
  | count + 1, pixels, off, pix =>
    if pix ≥ total ∨ off ≥ data.length then (pixels, off, pix)
    else
      let ci := data.getD off 0
      let dst := pix * 4
      let pixels' :=
        if ci < 256 then
          let c := pal ci
          (((pixels.set dst c.r).set (dst + 1) c.g).set (dst + 2) c.b).set (dst + 3) c.a
        else pixels
      vmRleInner data pal total count pixels' (off + 1) (pix + 1)

/-- Outer RLE loop of the `verify_mpc` MPC decoder: a byte above `0x80`
skips transparent pixels, any other byte (including `0x00`) is an
opaque run of that count. -/
def vmRleLoop (data : List Nat) (pal : Nat → Rgba) (rle_end total : Nat) :
    Nat → List Nat → Nat → Nat → List Nat
  | 0, pixels, _, _ => pixels
  | fuel + 1, pixels, off, pix =>
    if off < rle_end ∧ pix < total then
      if off ≥ data.length then pixels
      else
        let byte := data.getD off 0
        if byte > 128 then
          vmRleLoop data pal rle_end total fuel pixels (off + 1) (pix + (byte - 128))
        else
          let r := vmRleInner data pal total byte pixels (off + 1) pix
          vmRleLoop data pal rle_end total fuel r.1 r.2.1 r.2.2
    else pixels

/-- Formalisation of claim C8 as stated: the same RLE loop, except that
a byte equal to `0x00` terminates decoding of the frame immediately
(no further bytes consumed, no further pixels written). -/
def vmRleLoopBreak0 (data : List Nat) (pal : Nat → Rgba) (rle_end total : Nat) :
    Nat → List Nat → Nat → Nat → List Nat
  | 0, pixels, _, _ => pixels
  | fuel + 1, pixels, off, pix =>
    if off < rle_end ∧ pix < total then
      if off ≥ data.length then pixels
      else
        let byte := data.getD off 0
        if byte = 0 then pixels
        else if byte > 128 then
          vmRleLoopBreak0 data pal rle_end total fuel pixels (off + 1) (pix + (byte - 128))
        else
          let r := vmRleInner data pal total byte pixels (off + 1) pix
          vmRleLoopBreak0 data pal rle_end total fuel r.1 r.2.1 r.2.2
    else pixels

-- ===========================================================================
-- MAP → MMF sprite-slot remap
-- (src/packages/converter/src/bin/map2mmf.rs `convert_map_to_mmf`)
-- ===========================================================================

/-- Construction of the `old_slot → dense_slot` map of
`convert_map_to_mmf`: walk the 255 sprite slots in order; every slot
carrying a filename is given the next 1-based dense index (keys and
values pass through the `as u8` cast). -/
def buildOldToNewLoop {α : Type} : List (Option α) → Nat → Nat → List (Nat × Nat) → List (Nat × Nat)
  | [], _, _, acc => acc
  | none :: rest, old_idx, new_idx, acc => buildOldToNewLoop rest (old_idx + 1) new_idx acc
  | some _ :: rest, old_idx, new_idx, acc =>
    buildOldToNewLoop rest (old_idx + 1) (new_idx + 1) (acc ++ [(old_idx % 256, new_idx % 256)])

/-- `old_to_new.get(&k).copied().unwrap_or(0)`: the `HashMap` is built
with distinct keys, so an association-list first-match lookup models
it. -/
def lookupOldToNew (m : List (Nat × Nat)) (k : Nat) : Nat :=
  ((m.find? (fun p => p.1 = k)).map (fun p => p.2)).getD 0

/-- The per-tile sprite-slot remap applied to each of the three layers:
byte 0 stays 0 (no sprite); a non-zero byte `k` refers to 0-based slot
`k - 1` and is replaced by that slot's dense index, defaulting to 0
when the slot carries no filename. -/
def remapSpriteSlot {α : Type} (names : List (Option α)) (k : Nat) : Nat :=
  if k = 0 then 0
  else lookupOldToNew (buildOldToNewLoop names 0 1 []) (k - 1)

/-- One layer plane of the MMF tile blob: `(dense_slot, frame)` byte
pairs in tile order. -/
def mmfLayerBlob {α : Type} (names : List (Option α)) (tiles : List (Nat × Nat)) : List Nat :=
  tiles.foldl (fun acc t => acc ++ [remapSpriteSlot names t.1, t.2]) []

-- ===========================================================================
-- Specification predicates and concrete test vectors
-- ===========================================================================

/-- Closed form of the concatenation phase: the frame table produced
from staged frames once the running blob length starts at `base`. -/
def frameTableFrom (base : Nat) : List (FrameEntry × List Nat) → List FrameEntry
  | [] => []
  | fr :: rest =>
    { fr.1 with
        data_offset := base % 4294967296
        data_length := fr.2.length % 4294967296 } :: frameTableFrom (base + fr.2.length) rest

/-- The frame-table invariant of claim C3: every `data_offset` is the
sum of the preceding `data_length`s, the `data_length`s sum to the blob
length, offsets are monotone, and strictly increase across frames with
data. -/
def FrameTableWellFormed (entries : List FrameEntry) (blob : List Nat) : Prop :=
  (∀ i, i < entries.length →
    (entries.getD i ⟨0, 0, 0, 0, 0, 0⟩).data_offset =
      ((entries.take i).map (fun e => e.data_length)).sum) ∧
  (entries.map (fun e => e.data_length)).sum = blob.length ∧
  (∀ i j, i ≤ j → j < entries.length →
    (entries.getD i ⟨0, 0, 0, 0, 0, 0⟩).data_offset ≤
      (entries.getD j ⟨0, 0, 0, 0, 0, 0⟩).data_offset) ∧
  (∀ i j, i < j → j < entries.length →
    0 < (entries.getD i ⟨0, 0, 0, 0, 0, 0⟩).data_length →
    0 < (entries.getD j ⟨0, 0, 0, 0, 0, 0⟩).data_length →
    (entries.getD i ⟨0, 0, 0, 0, 0, 0⟩).data_offset <
      (entries.getD j ⟨0, 0, 0, 0, 0, 0⟩).data_offset)

/-- Concrete MPC file: frame count 0, one palette entry with
BGRA `(1,2,3,0)` (so RGB `(3,2,1)` after conversion). -/
def c4MpcInput : List Nat :=
  [77, 80, 67, 32, 70, 105, 108, 101, 32, 86, 101, 114, 0, 0, 0, 0, 0, 0, 0, 0,
   0, 0, 0, 0, 0, 0, 0, 0, 0, 0, 0, 0, 0, 0, 0, 0, 0, 0, 0, 0, 0, 0, 0, 0, 0, 0,
   0, 0, 0, 0, 0, 0, 0, 0, 0, 0, 0, 0, 0, 0, 0, 0, 0, 0, 0, 0, 0, 0, 16, 0, 0,
   0, 16, 0, 0, 0, 0, 0, 0, 0, 0, 0, 0, 0, 1, 0, 0, 0, 0, 0, 0, 0, 0, 0, 0, 0,
   0, 0, 0, 0, 0, 0, 0, 0, 0, 0, 0, 0, 0, 0, 0, 0, 0, 0, 0, 0, 0, 0, 0, 0, 0,
   0, 0, 0, 0, 0, 0, 0, 1, 2, 3, 0, 0, 0, 0, 0, 0, 0, 0, 0, 0, 0, 0, 0, 0, 0,
   0, 0, 0, 0, 0, 0, 0, 0, 0, 0, 0, 0, 0, 0]

/-- Concrete MPC file: one 2×1 frame whose RLE stream is `[2, 7, 7]`
(two opaque pixels with palette index 7), empty source palette. -/
def c3MpcInput : List Nat :=
  [77, 80, 67, 32, 70, 105, 108, 101, 32, 86, 101, 114, 0, 0, 0, 0, 0, 0, 0, 0,
   0, 0, 0, 0, 0, 0, 0, 0, 0, 0, 0, 0, 0, 0, 0, 0, 0, 0, 0, 0, 0, 0, 0, 0, 0, 0,
   0, 0, 0, 0, 0, 0, 0, 0, 0, 0, 0, 0, 0, 0, 0, 0, 0, 0, 0, 0, 0, 0, 16, 0, 0,
   0, 16, 0, 0, 0, 1, 0, 0, 0, 0, 0, 0, 0, 0, 0, 0, 0, 0, 0, 0, 0, 0, 0, 0, 0,
   0, 0, 0, 0, 0, 0, 0, 0, 0, 0, 0, 0, 0, 0, 0, 0, 0, 0, 0, 0, 0, 0, 0, 0, 0,
   0, 0, 0, 0, 0, 0, 0, 0, 0, 0, 0, 23, 0, 0, 0, 2, 0, 0, 0, 1, 0, 0, 0, 0, 0,
   0, 0, 0, 0, 0, 0, 2, 7, 7, 0, 0, 0, 0, 0]

/-- Concrete ASF file: 2×1 canvas, one frame whose RLE paints both
pixels with palette entry 0 at alpha 255. -/
def c3AsfInput : List Nat :=
  [65, 83, 70, 32, 49, 46, 48, 0, 0, 0, 0, 0, 0, 0, 0, 0, 2, 0, 0, 0, 1, 0, 0,
   0, 1, 0, 0, 0, 0, 0, 0, 0, 1, 0, 0, 0, 0, 0, 0, 0, 0, 0, 0, 0, 0, 0, 0, 0,
   0, 0, 0, 0, 0, 0, 0, 0, 0, 0, 0, 0, 0, 0, 0, 0, 10, 20, 30, 0, 80, 0, 0, 0,
   4, 0, 0, 0, 0, 0, 0, 0, 2, 255, 0, 0]

/-- Concrete 80-byte ASF file whose header declares 3 frames but whose
frame index has room for only 2 entries: the frame index read stops
early and `frame_offsets[2]` is an out-of-bounds `Vec` index. -/
def c2AsfInput : List Nat :=
  [65, 83, 70, 32, 49, 46, 48, 0, 0, 0, 0, 0, 0, 0, 0, 0, 1, 0, 0, 0, 1, 0, 0,
   0, 3, 0, 0, 0, 0, 0, 0, 0, 0, 0, 0, 0, 0, 0, 0, 0, 0, 0, 0, 0, 0, 0, 0, 0,
   0, 0, 0, 0, 0, 0, 0, 0, 0, 0, 0, 0, 0, 0, 0, 0, 0, 0, 0, 0, 0, 0, 0, 0, 0,
   0, 0, 0, 0, 0, 0, 0]

/-- Concrete MPC frame region: one 1×1 frame whose declared RLE range
is the single byte `[2]` (an opaque run header) while the run's
palette-index byte `0` sits one byte past the declared range. -/
def c5Data : List Nat :=
  [21, 0, 0, 0, 1, 0, 0, 0, 1, 0, 0, 0, 0, 0, 0, 0, 0, 0, 0, 0, 2, 0]

/-- Concrete MSF container carrying the `MSF1` magic: 1×1 canvas, one
empty frame, pixel format Indexed8, empty palette, uncompressed blob. -/
def c1Msf1File : List Nat :=
  [77, 83, 70, 49, 1, 0, 0, 0, 1, 0, 1, 0, 1, 0, 1, 15, 0, 0, 0, 0, 0, 0, 0, 0,
   1, 0, 0, 0, 0, 0, 0, 0, 0, 0, 0, 0, 0, 0, 0, 0, 0, 0, 0, 0, 69, 78, 68, 0,
   0, 0, 0, 0]

/-- The same container byte for byte, carrying the `MSF2` magic
instead. -/
def c1Msf2File : List Nat :=
  [77, 83, 70, 50, 1, 0, 0, 0, 1, 0, 1, 0, 1, 0, 1, 15, 0, 0, 0, 0, 0, 0, 0, 0,
   1, 0, 0, 0, 0, 0, 0, 0, 0, 0, 0, 0, 0, 0, 0, 0, 0, 0, 0, 0, 69, 78, 68, 0,
   0, 0, 0, 0]

/-- Concrete encode input for the header round-trip: 2×1 canvas, one
frame with one opaque pixel, one palette entry, negative x anchor. -/
def c9Input : MsfEncodeInput :=
  { canvas_width := 2
    canvas_height := 1
    frame_count := 1
    directions := 2
    fps := 15
    anchor_x := -3
    anchor_y := 5
    pixel_format := .indexed8alpha8
    palette := [⟨1, 2, 3, 255⟩]
    frame_pixels := [[1, 2, 3, 255, 0, 0, 0, 0]] }

/-- The scan condition of `bboxStep` for the pixel at `(x, yy)`. -/
def bboxContent (pixels : List Nat) (width x yy : Nat) : Prop :=
  (yy * width + x) * 4 + 3 < pixels.length ∧ 0 < pixels.getD ((yy * width + x) * 4 + 3) 0

/-- The set of pixels visited by the `compute_tight_bbox` scan after
finishing the first `y` rows and the first `k` pixels of row `y`. -/
def bboxScanned (width y k x yy : Nat) : Prop :=
  (yy < y ∧ x < width) ∨ (yy = y ∧ x < k)

/-- Invariant of the `compute_tight_bbox` scan state over the visited
prefix: an untouched state is the initial one and nothing visited is
opaque; a touched state bounds every visited opaque pixel and attains
each of its four extremes at some visited opaque pixel. -/
def bboxInv (pixels : List Nat) (width height : Nat) (st : BboxState) (y k : Nat) : Prop :=
  (st.has_content = false →
    st.min_x = width ∧ st.min_y = height ∧ st.max_x = 0 ∧ st.max_y = 0 ∧
    ∀ x yy, bboxScanned width y k x yy → ¬bboxContent pixels width x yy) ∧
  (st.has_content = true →
    (∀ x yy, bboxScanned width y k x yy → bboxContent pixels width x yy →
      st.min_x ≤ x ∧ x ≤ st.max_x ∧ st.min_y ≤ yy ∧ yy ≤ st.max_y) ∧
    (∃ x yy, bboxScanned width y k x yy ∧ bboxContent pixels width x yy ∧ x = st.min_x) ∧
    (∃ x yy, bboxScanned width y k x yy ∧ bboxContent pixels width x yy ∧ x = st.max_x) ∧
    (∃ x yy, bboxScanned width y k x yy ∧ bboxContent pixels width x yy ∧ yy = st.min_y) ∧
    (∃ x yy, bboxScanned width y k x yy ∧ bboxContent pixels width x yy ∧ yy = st.max_y))

/-- The first 28 bytes of an MSF1 container with symbolic header fields,
as a plain cons list, followed by the remainder of the file. -/
def hdrBytes28 (b8 b9 b10 b11 b12 b13 b14 b15 b16 b17 b18 b19 b24 b25 b26 : Nat)
    (rest : List Nat) : List Nat :=
  77 :: 83 :: 70 :: 49 :: 1 :: 0 :: 0 :: 0 :: b8 :: b9 :: b10 :: b11 :: b12 ::
    b13 :: b14 :: b15 :: b16 :: b17 :: b18 :: b19 :: 0 :: 0 :: 0 :: 0 :: b24 ::
    b25 :: b26 :: 0 :: rest

-- ===========================================================================
-- Theorems
-- ===========================================================================

theorem extendPaletteLoop_spec (T : Nat) :
    ∀ (fuel : Nat) (pal : List Rgba), T + 1 ≤ pal.length + fuel →
      extendPaletteLoop T fuel pal =
        pal ++ List.replicate (T + 1 - pal.length) ⟨0, 0, 0, 255⟩ := by
  intro fuel
  induction fuel with
  | zero =>
    intro pal h
    have : T + 1 - pal.length = 0 := by omega
    simp [extendPaletteLoop, this]
  | succ n ih =>
    intro pal h
    by_cases hle : pal.length ≤ T
    · have := ih (pal ++ [⟨0, 0, 0, 255⟩]) (by simp; omega)
      rw [extendPaletteLoop, if_pos hle, this]
      have h1 : T + 1 - pal.length = (T + 1 - (pal.length + 1)) + 1 := by omega
      simp [h1, List.replicate_succ]
    · rw [extendPaletteLoop, if_neg hle]
      have : T + 1 - pal.length = 0 := by omega
      simp [this]

theorem mutatePalette_ge (pal : List Rgba) (T : Nat) (h : pal.length ≤ T) :
    mutatePalette pal T =
      pal ++ List.replicate (T - pal.length) ⟨0, 0, 0, 255⟩ ++ [⟨0, 0, 0, 0⟩] := by
  rw [mutatePalette, if_neg (by omega)]
  rw [extendPaletteLoop_spec T (T + 1) pal (by omega)]
  have h1 : T + 1 - pal.length = (T - pal.length) + 1 := by omega
  rw [h1, List.replicate_succ' (T - pal.length)]
  rw [← List.append_assoc]
  rw [List.set_append]
  have hlen : (pal ++ List.replicate (T - pal.length) (⟨0, 0, 0, 255⟩ : Rgba)).length = T := by
    simp; omega
  rw [if_neg (by omega), hlen]
  simp

theorem mutatePalette_lt (pal : List Rgba) (T : Nat) (h : T < pal.length) :
    mutatePalette pal T =
      pal.set T ⟨(pal.getD T ⟨0, 0, 0, 0⟩).r, (pal.getD T ⟨0, 0, 0, 0⟩).g,
        (pal.getD T ⟨0, 0, 0, 0⟩).b, 0⟩ := by
  rw [mutatePalette, if_pos h]

/-- Claim C4: when the MPC→MSF encoder adopts transparent index `T`,
an in-range `T` has only its alpha byte zeroed — the RGB components of
`palette[T]` are preserved, not overwritten to black — while an
out-of-range `T` extends the palette with opaque black and plants the
`(0,0,0,0)` sentinel at `T`.  (Amended from the claim, which asserted
entry `T` is overwritten to `(0,0,0,0)` in both cases.) -/
theorem C4_transparent_palette_mutation (mpc : List Nat) (p : MpcParts)
    (hm : convert_mpc_to_msf_parts mpc = some p) :
    (p.transparent_idx < (readMpcPalette mpc (get_u32_le mpc 84)).length →
      p.palette = (readMpcPalette mpc (get_u32_le mpc 84)).set p.transparent_idx
        ⟨((readMpcPalette mpc (get_u32_le mpc 84)).getD p.transparent_idx ⟨0, 0, 0, 0⟩).r,
         ((readMpcPalette mpc (get_u32_le mpc 84)).getD p.transparent_idx ⟨0, 0, 0, 0⟩).g,
         ((readMpcPalette mpc (get_u32_le mpc 84)).getD p.transparent_idx ⟨0, 0, 0, 0⟩).b,
         0⟩) ∧
    ((readMpcPalette mpc (get_u32_le mpc 84)).length ≤ p.transparent_idx →
      p.palette = readMpcPalette mpc (get_u32_le mpc 84) ++
        List.replicate
          (p.transparent_idx - (readMpcPalette mpc (get_u32_le mpc 84)).length)
          ⟨0, 0, 0, 255⟩ ++ [⟨0, 0, 0, 0⟩]) := by
  simp only [convert_mpc_to_msf_parts] at hm
  split_ifs at hm <;>
  · simp only [Option.some.injEq] at hm
    subst hm
    exact ⟨fun hlt => mutatePalette_lt _ _ hlt, fun hge => mutatePalette_ge _ _ hge⟩

/-- Counterexample to claim C4 as stated: on `c4MpcInput` the adopted
transparent index is 0, in range of the one-entry palette, and the
mutated entry is `(3,2,1,0)` — alpha zeroed with RGB preserved — not
the `(0,0,0,0)` the claim asserts. -/
theorem C4_counterexample :
    convert_mpc_to_msf_parts c4MpcInput =
      some ⟨16, 16, 0, 0, 15, 8, 0, [⟨3, 2, 1, 0⟩], 0, [], []⟩ ∧
    (⟨3, 2, 1, 0⟩ : Rgba) ≠ ⟨0, 0, 0, 0⟩ := by
  exact ⟨by decide, by decide⟩

theorem C4_transparent_palette_mutation_witness :
    (⟨16, 16, 0, 0, 15, 8, 0, [⟨3, 2, 1, 0⟩], 0, [], []⟩ : MpcParts).palette =
      (readMpcPalette c4MpcInput (get_u32_le c4MpcInput 84)).set 0
        ⟨((readMpcPalette c4MpcInput (get_u32_le c4MpcInput 84)).getD 0 ⟨0, 0, 0, 0⟩).r,
         ((readMpcPalette c4MpcInput (get_u32_le c4MpcInput 84)).getD 0 ⟨0, 0, 0, 0⟩).g,
         ((readMpcPalette c4MpcInput (get_u32_le c4MpcInput 84)).getD 0 ⟨0, 0, 0, 0⟩).b,
         0⟩ :=
  (C4_transparent_palette_mutation c4MpcInput
    ⟨16, 16, 0, 0, 15, 8, 0, [⟨3, 2, 1, 0⟩], 0, [], []⟩ (by decide)).1 (by decide)

/-- Claim C8, amended: in the `verify_mpc` MPC decoder an RLE byte
equal to `0x00` does *not* terminate the frame: it is a zero-count
opaque run, a no-op, after which decoding continues with the next byte
of the declared range (consuming further bytes and writing further
pixels exactly as if the `0x00` were absent). -/
theorem C8_zero_is_noop (data : List Nat) (pal : Nat → Rgba)
    (rle_end total fuel off pix : Nat) (pixels : List Nat)
    (h1 : off < rle_end) (h2 : pix < total) (h3 : off < data.length)
    (h0 : data.getD off 0 = 0) :
    vmRleLoop data pal rle_end total (fuel + 1) pixels off pix =
      vmRleLoop data pal rle_end total fuel pixels (off + 1) pix := by
  rw [vmRleLoop, if_pos ⟨h1, h2⟩, if_neg (by omega), h0]
  simp [vmRleInner]

/-- Counterexample to claim C8 as stated: on the stream `[0x00, 0x01,
0x05]` the `verify_mpc` RLE loop reads the leading `0x00`, then goes on
to consume two more bytes and write a pixel through palette entry 5;
the claim's break-on-`0x00` reading would leave the frame untouched. -/
theorem C8_counterexample :
    vmRleLoop [0, 1, 5] (fun i => if i = 5 then ⟨9, 8, 7, 255⟩ else ⟨0, 0, 0, 0⟩)
        3 1 4 [0, 0, 0, 0] 0 0 = [9, 8, 7, 255] ∧
    vmRleLoopBreak0 [0, 1, 5] (fun i => if i = 5 then ⟨9, 8, 7, 255⟩ else ⟨0, 0, 0, 0⟩)
        3 1 4 [0, 0, 0, 0] 0 0 = [0, 0, 0, 0] ∧
    ([9, 8, 7, 255] : List Nat) ≠ [0, 0, 0, 0] := by
  refine ⟨by decide, by decide, by decide⟩

theorem C8_zero_is_noop_witness :
    vmRleLoop [0, 1, 5] (fun i => if i = 5 then ⟨9, 8, 7, 255⟩ else ⟨0, 0, 0, 0⟩)
        3 1 4 [0, 0, 0, 0] 0 0 =
      vmRleLoop [0, 1, 5] (fun i => if i = 5 then ⟨9, 8, 7, 255⟩ else ⟨0, 0, 0, 0⟩)
        3 1 3 [0, 0, 0, 0] 1 0 :=
  C8_zero_is_noop [0, 1, 5] _ 3 1 3 0 0 [0, 0, 0, 0]
    (by decide) (by decide) (by decide) (by decide)

/-- Claim C2: on `c2AsfInput` — a structurally truncated ASF whose
header declares 3 frames but whose frame index holds only 2 entries —
the engine `decode_asf_frames` hits the unguarded `frame_offsets[2]`
index and aborts (panics) instead of treating the missing frame as empty and
continuing. -/
theorem C2_truncated_frame_index_panics :
    decode_asf_frames c2AsfInput = AsfDecodeResult.panic := by
  decide

/-- Claim C1, amended: each MSF decoder accepts exactly one magic and
rejects the other outright — the engine composited-canvas decoder
`decode_msf_frames` fails on any buffer whose first four bytes are not
`MSF1`, and the converter verifier's `decode_msf_to_rgba` fails on any
buffer whose first four bytes are not `MSF2` — regardless of the
pixel-format byte. -/
theorem C1_single_magic_gate (zd zd2 : List Nat → Option (List Nat)) (d1 d2 : List Nat)
    (h1 : d1.take 4 ≠ msf1MagicBytes) (h2 : d2.take 4 ≠ msf2MagicBytes) :
    decode_msf_frames zd d1 = none ∧ decode_msf_to_rgba zd2 d2 = none := by
  constructor
  · by_cases hlen : d1.length < 28
    · rw [decode_msf_frames, if_pos hlen]
    · rw [decode_msf_frames, if_neg hlen, if_pos h1]
  · rw [decode_msf_to_rgba]
    rw [if_pos (Or.inr h2)]

/-- Counterexample to claim C1 as stated: `c1Msf2File` and `c1Msf1File`
are byte-for-byte identical except for the magic, yet the
composited-canvas decoder decodes the `MSF1` variant (one empty frame
on a 1×1 canvas) and rejects the `MSF2` variant outright — a decoder
does reject a file solely because it carries the other magic. -/
theorem C1_counterexample :
    decode_msf_frames (fun _ => none) c1Msf2File = none ∧
    decode_msf_frames (fun _ => none) c1Msf1File = some (1, [0, 0, 0, 0]) ∧
    c1Msf1File.drop 4 = c1Msf2File.drop 4 := by
  refine ⟨by decide, by decide, by decide⟩

theorem C1_single_magic_gate_witness :
    decode_msf_frames (fun _ => none) c1Msf2File = none ∧
    decode_msf_to_rgba (fun _ => none) c1Msf1File = none :=
  C1_single_magic_gate (fun _ => none) (fun _ => none) c1Msf2File c1Msf1File
    (by decide) (by decide)

theorem buildOldToNewLoop_acc {α : Type} (names : List (Option α)) :
    ∀ (base nb : Nat) (acc : List (Nat × Nat)),
      buildOldToNewLoop names base nb acc = acc ++ buildOldToNewLoop names base nb [] := by
  induction names with
  | nil => intro base nb acc; simp [buildOldToNewLoop]
  | cons o rest ih =>
    intro base nb acc
    cases o with
    | none => simpa [buildOldToNewLoop] using ih (base + 1) nb acc
    | some a =>
      rw [buildOldToNewLoop, buildOldToNewLoop]
      rw [ih (base + 1) (nb + 1) (acc ++ [(base % 256, nb % 256)])]
      rw [ih (base + 1) (nb + 1) ([] ++ [(base % 256, nb % 256)])]
      simp

theorem buildOldToNewLoop_key_range {α : Type} (names : List (Option α)) :
    ∀ (base nb : Nat), base + names.length ≤ 256 →
      ∀ p ∈ buildOldToNewLoop names base nb [], base ≤ p.1 ∧ p.1 < base + names.length := by
  induction names with
  | nil => intro base nb _ p hp; simp [buildOldToNewLoop] at hp
  | cons o rest ih =>
    intro base nb hle p hp
    cases o with
    | none =>
      rw [buildOldToNewLoop] at hp
      have := ih (base + 1) nb (by simp at hle ⊢; omega) p hp
      simp at hle ⊢
      omega
    | some a =>
      rw [buildOldToNewLoop, buildOldToNewLoop_acc] at hp
      simp at hp
      rcases hp with hp | hp
      · have : base % 256 = base := Nat.mod_eq_of_lt (by simp at hle; omega)
        rw [hp, this]
        simp
      · have := ih (base + 1) (nb + 1) (by simp at hle ⊢; omega) p hp
        simp at hle ⊢
        omega

theorem buildOldToNewLoop_find {α : Type} (names : List (Option α)) :
    ∀ (base nb s : Nat), base + names.length ≤ 256 →
      (buildOldToNewLoop names base nb []).find? (fun p => p.1 = base + s) =
        (match names[s]? with
          | some (some _) =>
            some (base + s, (nb + (names.take s).countP (fun o => o.isSome)) % 256)
          | _ => none) := by
  induction names with
  | nil => intro base nb s _; simp [buildOldToNewLoop]
  | cons o rest ih =>
    intro base nb s hle
    cases o with
    | none =>
      rw [buildOldToNewLoop]
      cases s with
      | zero =>
        simp only [List.getElem?_cons_zero]
        rw [List.find?_eq_none.mpr]
        intro p hp
        have := buildOldToNewLoop_key_range rest (base + 1) nb (by simp at hle; omega) p hp
        simp only [decide_eq_true_eq]
        omega
      | succ s' =>
        have := ih (base + 1) nb s' (by simp at hle; omega)
        rw [show base + (s' + 1) = (base + 1) + s' by omega]
        rw [this]
        simp
    | some a =>
      rw [buildOldToNewLoop, buildOldToNewLoop_acc]
      have hb : base % 256 = base :=
        Nat.mod_eq_of_lt (by simp only [List.length_cons] at hle; omega)
      rw [List.nil_append, List.singleton_append]
      cases s with
      | zero =>
        rw [List.find?_cons_of_pos _ (by simp [hb])]
        simp only [List.length_cons] at hle
        simp
        all_goals omega
      | succ s' =>
        rw [List.find?_cons_of_neg _ (by simp only [decide_eq_true_eq, hb]; omega)]
        have := ih (base + 1) (nb + 1) s' (by simp at hle; omega)
        rw [show base + (s' + 1) = (base + 1) + s' by omega]
        rw [this]
        simp only [List.getElem?_cons_succ, List.take_succ_cons, List.countP_cons]
        cases h : rest[s']? with
        | none => simp
        | some o' =>
          cases o' with
          | none => simp
          | some a' =>
            simp
            all_goals omega

/-- Claim C10: in MAP→MMF conversion the per-tile sprite-slot remap
(identical for the three layers) sends byte 0 to 0; a non-zero byte `k`
whose 0-based slot `k − 1` carries a filename to that slot's 1-based
index in the compacted dense table (one plus the number of named slots
before it); and a non-zero byte `k` whose slot `k − 1` is empty — or
out of range of the slot table — silently to 0. -/
theorem C10_sprite_slot_remap {α : Type} (names : List (Option α)) (k : Nat)
    (hlen : names.length ≤ 255) :
    (remapSpriteSlot names 0 = 0) ∧
    (∀ a, 0 < k → names[k - 1]? = some (some a) →
      remapSpriteSlot names k = 1 + (names.take (k - 1)).countP (fun o => o.isSome)) ∧
    (0 < k → names[k - 1]? = some none → remapSpriteSlot names k = 0) ∧
    (0 < k → names.length ≤ k - 1 → remapSpriteSlot names k = 0) := by
  have hfind := buildOldToNewLoop_find names 0 1 (k - 1) (by omega)
  refine ⟨rfl, ?_, ?_, ?_⟩
  · intro a hk hget
    rw [remapSpriteSlot, if_neg (by omega), lookupOldToNew]
    rw [show (fun p : Nat × Nat => decide (p.1 = k - 1)) =
      (fun p : Nat × Nat => decide (p.1 = 0 + (k - 1))) by simp]
    rw [hfind, hget]
    have hk1 : k - 1 < names.length := by
      by_contra hc
      rw [List.getElem?_eq_none (by omega)] at hget
      exact Option.noConfusion hget
    have hc : (names.take (k - 1)).countP (fun o => o.isSome) ≤ k - 1 := by
      calc (names.take (k - 1)).countP (fun o => o.isSome)
          ≤ (names.take (k - 1)).length := List.countP_le_length _
        _ ≤ k - 1 := by simp
    rw [Nat.mod_eq_of_lt (by omega)]
    simp
  · intro hk hget
    rw [remapSpriteSlot, if_neg (by omega), lookupOldToNew]
    rw [show (fun p : Nat × Nat => decide (p.1 = k - 1)) =
      (fun p : Nat × Nat => decide (p.1 = 0 + (k - 1))) by simp]
    rw [hfind, hget]
    rfl
  · intro hk hge
    rw [remapSpriteSlot, if_neg (by omega), lookupOldToNew]
    rw [show (fun p : Nat × Nat => decide (p.1 = k - 1)) =
      (fun p : Nat × Nat => decide (p.1 = 0 + (k - 1))) by simp]
    rw [hfind, List.getElem?_eq_none (by omega)]
    rfl

theorem C10_sprite_slot_remap_witness :
    remapSpriteSlot [some 0, none, some 1] 3 =
      1 + (([some 0, none, some 1].take 2).countP (fun o : Option Nat => o.isSome)) :=
  (C10_sprite_slot_remap [some 0, none, some 1] 3 (by decide)).2.1 1
    (by decide) (by decide)

theorem natList_getD_le_sum (l : List Nat) : ∀ i, l.getD i 0 ≤ l.sum := by
  induction l with
  | nil => intro i; simp
  | cons a rest ih =>
    intro i
    cases i with
    | zero => simp
    | succ i' =>
      have := ih i'
      simp only [List.getD_cons_succ, List.sum_cons]
      omega

theorem natList_sum_take_le (l : List Nat) (i : Nat) : (l.take i).sum ≤ l.sum := by
  conv_rhs => rw [← List.take_append_drop i l]
  rw [List.sum_append]
  omega

theorem natList_sum_take_mono (l : List Nat) (i j : Nat) (h : i ≤ j) :
    (l.take i).sum ≤ (l.take j).sum := by
  have h1 : (l.take j).take i = l.take i := by
    rw [List.take_take]
    congr 1
    omega
  calc (l.take i).sum = ((l.take j).take i).sum := by rw [h1]
    _ ≤ (l.take j).sum := natList_sum_take_le _ _

theorem assignOffsets_go (raws : List (FrameEntry × List Nat)) :
    ∀ (es : List FrameEntry) (bs : List Nat),
      raws.foldl (fun acc fr =>
        (acc.1 ++ [{ fr.1 with
            data_offset := acc.2.length % 4294967296
            data_length := fr.2.length % 4294967296 }],
          acc.2 ++ fr.2)) (es, bs) =
      (es ++ frameTableFrom bs.length raws, bs ++ (raws.map (fun fr => fr.2)).flatten) := by
  induction raws with
  | nil => intro es bs; simp [frameTableFrom]
  | cons fr rest ih =>
    intro es bs
    rw [List.foldl_cons, ih]
    simp [frameTableFrom, List.append_assoc]

theorem assignOffsets_eq (raws : List (FrameEntry × List Nat)) :
    assignOffsets raws = (frameTableFrom 0 raws, (raws.map (fun fr => fr.2)).flatten) := by
  rw [assignOffsets]
  have := assignOffsets_go raws [] []
  simpa using this

theorem frameTableFrom_length (raws : List (FrameEntry × List Nat)) :
    ∀ base, (frameTableFrom base raws).length = raws.length := by
  induction raws with
  | nil => intro base; simp [frameTableFrom]
  | cons fr rest ih => intro base; simp [frameTableFrom, ih]

theorem frameTableFrom_getD (raws : List (FrameEntry × List Nat)) :
    ∀ (base i : Nat), i < raws.length →
      (frameTableFrom base raws).getD i ⟨0, 0, 0, 0, 0, 0⟩ =
        { (raws.getD i (⟨0, 0, 0, 0, 0, 0⟩, [])).1 with
            data_offset :=
              (base + ((raws.take i).map (fun fr => fr.2.length)).sum) % 4294967296
            data_length := (raws.getD i (⟨0, 0, 0, 0, 0, 0⟩, [])).2.length % 4294967296 } := by
  induction raws with
  | nil => intro base i h; simp at h
  | cons fr rest ih =>
    intro base i h
    cases i with
    | zero => simp [frameTableFrom]
    | succ i' =>
      rw [frameTableFrom]
      simp only [List.getD_cons_succ, List.take_succ_cons, List.map_cons, List.sum_cons]
      rw [ih (base + fr.2.length) i' (by simp only [List.length_cons] at h; omega)]
      rw [Nat.add_assoc]

theorem frameTableFrom_map_dl (raws : List (FrameEntry × List Nat)) :
    ∀ base, (frameTableFrom base raws).map (fun e => e.data_length) =
      raws.map (fun fr => fr.2.length % 4294967296) := by
  induction raws with
  | nil => intro base; simp [frameTableFrom]
  | cons fr rest ih => intro base; simp [frameTableFrom, ih]

theorem assignOffsets_wellFormed (raws : List (FrameEntry × List Nat))
    (h32 : ((raws.map (fun fr => fr.2)).flatten).length < 4294967296) :
    FrameTableWellFormed (assignOffsets raws).1 (assignOffsets raws).2 := by
  rw [assignOffsets_eq]
  show FrameTableWellFormed (frameTableFrom 0 raws) ((raws.map (fun fr => fr.2)).flatten)
  set L := raws.map (fun fr => fr.2.length) with hL
  have hLsum : ((raws.map (fun fr => fr.2)).flatten).length = L.sum := by
    rw [List.length_flatten, List.map_map, hL]
    rfl
  have hsum32 : L.sum < 4294967296 := by omega
  have hlen : (frameTableFrom 0 raws).length = raws.length := frameTableFrom_length raws 0
  have hLlen : L.length = raws.length := by simp [hL]
  have hmap : (frameTableFrom 0 raws).map (fun e => e.data_length) = L := by
    rw [frameTableFrom_map_dl, hL]
    apply List.map_congr_left
    intro fr hfr
    apply Nat.mod_eq_of_lt
    have : fr.2.length ≤ L.sum := by
      have hmem : fr.2.length ∈ L := by
        rw [hL]
        exact List.mem_map.mpr ⟨fr, hfr, rfl⟩
      exact List.le_sum_of_mem hmem
    omega
  have hoff : ∀ i, i < raws.length →
      ((frameTableFrom 0 raws).getD i ⟨0, 0, 0, 0, 0, 0⟩).data_offset = (L.take i).sum := by
    intro i hi
    rw [frameTableFrom_getD raws 0 i hi]
    simp only [Nat.zero_add]
    have htk : (raws.take i).map (fun fr => fr.2.length) = L.take i := by
      rw [hL, List.map_take]
    rw [htk]
    exact Nat.mod_eq_of_lt (by
      have := natList_sum_take_le L i
      omega)
  have hdl : ∀ i, i < raws.length →
      ((frameTableFrom 0 raws).getD i ⟨0, 0, 0, 0, 0, 0⟩).data_length = L.getD i 0 := by
    intro i hi
    rw [frameTableFrom_getD raws 0 i hi]
    have h1 : L.getD i 0 = (raws.getD i (⟨0, 0, 0, 0, 0, 0⟩, [])).2.length := by
      rw [hL, List.getD_eq_getElem _ _ (by simpa using hi),
        List.getD_eq_getElem _ _ hi, List.getElem_map]
    rw [h1]
    exact Nat.mod_eq_of_lt (by
      have := natList_getD_le_sum L i
      rw [h1] at this
      omega)
  refine ⟨?_, ?_, ?_, ?_⟩
  · intro i hi
    rw [hlen] at hi
    rw [hoff i hi]
    have hmt : ((frameTableFrom 0 raws).take i).map (fun e => e.data_length) = L.take i := by
      rw [List.map_take, hmap]
    rw [hmt]
  · rw [hmap, hLsum]
  · intro i j hij hj
    rw [hlen] at hj
    rw [hoff i (by omega), hoff j hj]
    exact natList_sum_take_mono L i j hij
  · intro i j hij hj hdi _
    rw [hlen] at hj
    rw [hoff i (by omega), hoff j hj]
    rw [hdl i (by omega)] at hdi
    have hstep : (L.take (i + 1)).sum = (L.take i).sum + L.getD i 0 := by
      have hiL : i < L.length := by omega
      rw [List.sum_take_succ L i hiL, List.getD_eq_getElem _ _ hiL]
    have := natList_sum_take_mono L (i + 1) j (by omega)
    omega

theorem mpcFrameRaw_empty (mpc_data : List Nat) (fds T : Nat) (offs : List Nat) (i : Nat)
    (h : (mpcFrameRaw mpc_data fds T offs i).1.width = 0 ∨
      (mpcFrameRaw mpc_data fds T offs i).1.height = 0) :
    (mpcFrameRaw mpc_data fds T offs i).2 = [] := by
  simp only [mpcFrameRaw] at h ⊢
  split_ifs at h ⊢ with h1 h2 h3
  · rfl
  · rfl
  · rfl
  · dsimp only at h
    push_neg at h3
    exact absurd h (by omega)

theorem asfFrameRaw_empty (asf_data : List Nat) (pal : List Rgba) (w h : Nat)
    (fes : List (Nat × Nat)) (i : Nat)
    (he : (asfFrameRaw asf_data pal w h fes i).1.width = 0 ∨
      (asfFrameRaw asf_data pal w h fes i).1.height = 0) :
    (asfFrameRaw asf_data pal w h fes i).2 = [] := by
  simp only [asfFrameRaw] at he ⊢
  split_ifs at he ⊢ <;> first | rfl | (dsimp only at he; exact absurd he (by omega))

theorem convert_mpc_parts_shape (mpc : List Nat) (p : MpcParts)
    (hm : convert_mpc_to_msf_parts mpc = some p) :
    ∃ raws : List (FrameEntry × List Nat),
      p.entries = (assignOffsets raws).1 ∧ p.blob = (assignOffsets raws).2 ∧
      ∀ fr ∈ raws, (fr.1.width = 0 ∨ fr.1.height = 0) → fr.2 = [] := by
  simp only [convert_mpc_to_msf_parts] at hm
  split_ifs at hm <;>
  · simp only [Option.some.injEq] at hm
    subst hm
    refine ⟨_, rfl, rfl, ?_⟩
    intro fr hfr hempty
    rw [List.mem_map] at hfr
    obtain ⟨i, _, rfl⟩ := hfr
    exact mpcFrameRaw_empty _ _ _ _ _ hempty

theorem convert_asf_parts_shape (asf : List Nat) (p : AsfParts)
    (ha : convert_asf_to_msf_parts asf = some p) :
    ∃ raws : List (FrameEntry × List Nat),
      p.entries = (assignOffsets raws).1 ∧ p.blob = (assignOffsets raws).2 ∧
      ∀ fr ∈ raws, (fr.1.width = 0 ∨ fr.1.height = 0) → fr.2 = [] := by
  simp only [convert_asf_to_msf_parts] at ha
  split_ifs at ha <;>
  · simp only [Option.some.injEq] at ha
    subst ha
    refine ⟨_, rfl, rfl, ?_⟩
    intro fr hfr hempty
    rw [List.mem_map] at hfr
    obtain ⟨i, _, rfl⟩ := hfr
    exact asfFrameRaw_empty _ _ _ _ _ _ hempty

theorem assignOffsets_empty_frames (raws : List (FrameEntry × List Nat))
    (hemp : ∀ fr ∈ raws, (fr.1.width = 0 ∨ fr.1.height = 0) → fr.2 = []) :
    ∀ i, i < (assignOffsets raws).1.length →
      (((assignOffsets raws).1.getD i ⟨0, 0, 0, 0, 0, 0⟩).width = 0 ∨
        ((assignOffsets raws).1.getD i ⟨0, 0, 0, 0, 0, 0⟩).height = 0) →
      ((assignOffsets raws).1.getD i ⟨0, 0, 0, 0, 0, 0⟩).data_length = 0 := by
  intro i hi hwz
  rw [assignOffsets_eq] at hi hwz ⊢
  have hi' : i < raws.length := by
    rwa [show ((frameTableFrom 0 raws, (raws.map (fun fr => fr.2)).flatten)).1 =
      frameTableFrom 0 raws from rfl, frameTableFrom_length] at hi
  rw [show ((frameTableFrom 0 raws, (raws.map (fun fr => fr.2)).flatten)).1 =
    frameTableFrom 0 raws from rfl] at hwz ⊢
  rw [frameTableFrom_getD raws 0 i hi'] at hwz ⊢
  dsimp only at hwz ⊢
  have hmem : raws.getD i (⟨0, 0, 0, 0, 0, 0⟩, []) ∈ raws := by
    rw [List.getD_eq_getElem _ _ hi']
    exact List.getElem_mem hi'
  have hnil := hemp _ hmem hwz
  rw [hnil]
  rfl

/-- Claim C3: in every MSF produced by the MPC→MSF or ASF→MSF encoder
(as long as the blob fits its `u32` wire fields), each frame-table
entry's `data_offset` equals the sum of the `data_length`s of all
preceding frames, the `data_length`s sum to the length of the
concatenated blob before zstd compression, `data_offset`s are monotone
non-decreasing and strictly increase across frames with data, and empty
frames (zero width or height) carry `data_length` 0 — hence the
prevailing running offset. -/
theorem C3_frame_table_offsets (mpc asf : List Nat) (pm : MpcParts) (pa : AsfParts)
    (hm : convert_mpc_to_msf_parts mpc = some pm)
    (ha : convert_asf_to_msf_parts asf = some pa)
    (hm32 : pm.blob.length < 4294967296)
    (ha32 : pa.blob.length < 4294967296) :
    (FrameTableWellFormed pm.entries pm.blob ∧
      ∀ i, i < pm.entries.length →
        ((pm.entries.getD i ⟨0, 0, 0, 0, 0, 0⟩).width = 0 ∨
          (pm.entries.getD i ⟨0, 0, 0, 0, 0, 0⟩).height = 0) →
        (pm.entries.getD i ⟨0, 0, 0, 0, 0, 0⟩).data_length = 0) ∧
    (FrameTableWellFormed pa.entries pa.blob ∧
      ∀ i, i < pa.entries.length →
        ((pa.entries.getD i ⟨0, 0, 0, 0, 0, 0⟩).width = 0 ∨
          (pa.entries.getD i ⟨0, 0, 0, 0, 0, 0⟩).height = 0) →
        (pa.entries.getD i ⟨0, 0, 0, 0, 0, 0⟩).data_length = 0) := by
  obtain ⟨rm, hEm, hBm, hem⟩ := convert_mpc_parts_shape mpc pm hm
  obtain ⟨ra, hEa, hBa, hea⟩ := convert_asf_parts_shape asf pa ha
  have hm32' : ((rm.map (fun fr => fr.2)).flatten).length < 4294967296 := by
    rw [hBm, assignOffsets_eq] at hm32
    exact hm32
  have ha32' : ((ra.map (fun fr => fr.2)).flatten).length < 4294967296 := by
    rw [hBa, assignOffsets_eq] at ha32
    exact ha32
  refine ⟨⟨?_, ?_⟩, ⟨?_, ?_⟩⟩
  · rw [hEm, hBm]
    exact assignOffsets_wellFormed rm hm32'
  · rw [hEm]
    exact assignOffsets_empty_frames rm hem
  · rw [hEa, hBa]
    exact assignOffsets_wellFormed ra ha32'
  · rw [hEa]
    exact assignOffsets_empty_frames ra hea

theorem C3_frame_table_offsets_witness :
    (FrameTableWellFormed [⟨0, 0, 2, 1, 0, 2⟩] [7, 7] ∧
      ∀ i, i < ([⟨0, 0, 2, 1, 0, 2⟩] : List FrameEntry).length →
        ((([⟨0, 0, 2, 1, 0, 2⟩] : List FrameEntry).getD i ⟨0, 0, 0, 0, 0, 0⟩).width = 0 ∨
          (([⟨0, 0, 2, 1, 0, 2⟩] : List FrameEntry).getD i ⟨0, 0, 0, 0, 0, 0⟩).height = 0) →
        (([⟨0, 0, 2, 1, 0, 2⟩] : List FrameEntry).getD i ⟨0, 0, 0, 0, 0, 0⟩).data_length = 0) ∧
    (FrameTableWellFormed [⟨0, 0, 2, 1, 0, 4⟩] [0, 255, 0, 255] ∧
      ∀ i, i < ([⟨0, 0, 2, 1, 0, 4⟩] : List FrameEntry).length →
        ((([⟨0, 0, 2, 1, 0, 4⟩] : List FrameEntry).getD i ⟨0, 0, 0, 0, 0, 0⟩).width = 0 ∨
          (([⟨0, 0, 2, 1, 0, 4⟩] : List FrameEntry).getD i ⟨0, 0, 0, 0, 0, 0⟩).height = 0) →
        (([⟨0, 0, 2, 1, 0, 4⟩] : List FrameEntry).getD i ⟨0, 0, 0, 0, 0, 0⟩).data_length = 0) :=
  C3_frame_table_offsets c3MpcInput c3AsfInput
    ⟨16, 16, 1, 0, 15, 8, 0, [⟨0, 0, 0, 0⟩], 0, [⟨0, 0, 2, 1, 0, 2⟩], [7, 7]⟩
    ⟨2, 1, 1, 0, 15, 0, 0, [⟨30, 20, 10, 255⟩], [⟨0, 0, 2, 1, 0, 4⟩], [0, 255, 0, 255]⟩
    (by decide) (by decide) (by decide) (by decide)

theorem bestLoop_inv (r g b : Nat) (rest : List Rgba) :
    ∀ (j bi bd : Nat), j + rest.length ≤ 256 → 0 < bd →
      (bestLoop r g b rest j bi bd = bi ∧
        ∀ k, k < rest.length → bd ≤ l1Dist r g b (rest.getD k ⟨0, 0, 0, 0⟩)) ∨
      (∃ k, k < rest.length ∧ bestLoop r g b rest j bi bd = j + k ∧
        l1Dist r g b (rest.getD k ⟨0, 0, 0, 0⟩) < bd ∧
        (∀ m, m < rest.length →
          l1Dist r g b (rest.getD k ⟨0, 0, 0, 0⟩) ≤ l1Dist r g b (rest.getD m ⟨0, 0, 0, 0⟩)) ∧
        (∀ m, m < k →
          l1Dist r g b (rest.getD k ⟨0, 0, 0, 0⟩) < l1Dist r g b (rest.getD m ⟨0, 0, 0, 0⟩))) := by
  induction rest with
  | nil =>
    intro j bi bd _ _
    left
    exact ⟨rfl, fun k hk => absurd hk (by simp)⟩
  | cons e tail ih =>
    intro j bi bd hj hbd
    have hjlt : j < 256 := by simp only [List.length_cons] at hj; omega
    have hjmod : j % 256 = j := Nat.mod_eq_of_lt hjlt
    by_cases hlt : l1Dist r g b e < bd
    · by_cases hz : l1Dist r g b e = 0
      · right
        refine ⟨0, by simp, ?_, ?_, ?_, ?_⟩
        · simp only [bestLoop, if_pos hlt, if_pos hz]
          omega
        · simpa using hlt
        · intro m _
          simp only [List.getD_cons_zero, hz]
          omega
        · intro m hm
          omega
      · have := ih (j + 1) j (l1Dist r g b e)
          (by simp only [List.length_cons] at hj; omega) (by omega)
        rcases this with ⟨heq, hall⟩ | ⟨k, hk, heq, hklt, hmin, hstrict⟩
        · right
          refine ⟨0, by simp, ?_, by simpa using hlt, ?_, ?_⟩
          · simp only [bestLoop, if_pos hlt, if_neg hz, hjmod, heq]
            omega
          · intro m hm
            cases m with
            | zero => omega
            | succ m' =>
              simp only [List.getD_cons_zero, List.getD_cons_succ]
              exact hall m' (by simpa using hm)
          · intro m hm
            omega
        · right
          refine ⟨k + 1, by simpa using hk, ?_, ?_, ?_, ?_⟩
          · simp only [bestLoop, if_pos hlt, if_neg hz, hjmod, heq]
            omega
          · simp only [List.getD_cons_succ]
            omega
          · intro m hm
            cases m with
            | zero =>
              simp only [List.getD_cons_succ, List.getD_cons_zero]
              omega
            | succ m' =>
              simp only [List.getD_cons_succ]
              exact hmin m' (by simpa using hm)
          · intro m hm
            cases m with
            | zero =>
              simp only [List.getD_cons_succ, List.getD_cons_zero]
              omega
            | succ m' =>
              simp only [List.getD_cons_succ]
              exact hstrict m' (by omega)
    · have := ih (j + 1) bi bd (by simp only [List.length_cons] at hj; omega) hbd
      rcases this with ⟨heq, hall⟩ | ⟨k, hk, heq, hklt, hmin, hstrict⟩
      · left
        refine ⟨?_, ?_⟩
        · simp only [bestLoop, if_neg hlt, heq]
        · intro k hk
          cases k with
          | zero => simpa using (by omega : bd ≤ l1Dist r g b e)
          | succ k' =>
            simp only [List.getD_cons_succ]
            exact hall k' (by simpa using hk)
      · right
        refine ⟨k + 1, by simpa using hk, ?_, ?_, ?_, ?_⟩
        · simp only [bestLoop, if_neg hlt, heq]
          omega
        · simp only [List.getD_cons_succ]
          omega
        · intro m hm
          cases m with
          | zero =>
            simp only [List.getD_cons_succ, List.getD_cons_zero]
            omega
          | succ m' =>
            simp only [List.getD_cons_succ]
            exact hmin m' (by simpa using hm)
        · intro m hm
          cases m with
          | zero =>
            simp only [List.getD_cons_succ, List.getD_cons_zero]
            omega
          | succ m' =>
            simp only [List.getD_cons_succ]
            exact hstrict m' (by omega)

/-- Claim C6: for an RGBA pixel with `alpha > 0` and a non-empty
palette (byte-valued components, at most 256 entries), the quantizer
emits the palette index minimising `|r−pr| + |g−pg| + |b−pb|` over RGB
only, resolving ties to the lowest index, paired with the original
alpha; a pixel with `alpha = 0` bypasses the search and emits
`(0, 0)`. -/
theorem C6_quantizer_nearest (r g b a : Nat) (palette : List Rgba)
    (ha : 0 < a) (hne : palette ≠ []) (hsz : palette.length ≤ 256)
    (hr : r < 256) (hg : g < 256) (hb : b < 256)
    (hpal : ∀ e ∈ palette, e.r < 256 ∧ e.g < 256 ∧ e.b < 256) :
    (rgbaPixelToIndexedAlpha r g b a palette).1 < palette.length ∧
    (∀ m, m < palette.length →
      l1Dist r g b (palette.getD (rgbaPixelToIndexedAlpha r g b a palette).1 ⟨0, 0, 0, 0⟩) ≤
        l1Dist r g b (palette.getD m ⟨0, 0, 0, 0⟩)) ∧
    (∀ m, m < (rgbaPixelToIndexedAlpha r g b a palette).1 →
      l1Dist r g b (palette.getD (rgbaPixelToIndexedAlpha r g b a palette).1 ⟨0, 0, 0, 0⟩) <
        l1Dist r g b (palette.getD m ⟨0, 0, 0, 0⟩)) ∧
    (rgbaPixelToIndexedAlpha r g b a palette).2 = a ∧
    rgbaPixelToIndexedAlpha r g b 0 palette = (0, 0) := by
  have hbody : rgbaPixelToIndexedAlpha r g b a palette =
      (bestLoop r g b palette 0 0 4294967295, a) := by
    rw [rgbaPixelToIndexedAlpha, if_neg (by omega)]
  have hd0 : l1Dist r g b (palette.getD 0 ⟨0, 0, 0, 0⟩) < 4294967295 := by
    have hmem : palette.getD 0 ⟨0, 0, 0, 0⟩ ∈ palette := by
      have : 0 < palette.length := List.length_pos.mpr hne
      rw [List.getD_eq_getElem _ _ this]
      exact List.getElem_mem this
    obtain ⟨t1, t2, t3⟩ := hpal _ hmem
    rw [l1Dist]
    have h1 : ((r : Int) - (palette.getD 0 ⟨0, 0, 0, 0⟩).r).natAbs < 256 := by omega
    have h2 : ((g : Int) - (palette.getD 0 ⟨0, 0, 0, 0⟩).g).natAbs < 256 := by omega
    have h3 : ((b : Int) - (palette.getD 0 ⟨0, 0, 0, 0⟩).b).natAbs < 256 := by omega
    omega
  have hinv := bestLoop_inv r g b palette 0 0 4294967295 (by omega) (by omega)
  rcases hinv with ⟨_, hall⟩ | ⟨k, hk, heq, _, hmin, hstrict⟩
  · exact absurd (hall 0 (List.length_pos.mpr hne)) (by omega)
  · rw [hbody]
    simp only [Nat.zero_add] at heq
    refine ⟨by rw [heq]; exact hk, ?_, ?_, rfl, by rw [rgbaPixelToIndexedAlpha]; simp⟩
    · intro m hm
      rw [heq]
      exact hmin m hm
    · intro m hm
      rw [heq] at hm ⊢
      exact hstrict m hm

theorem C6_quantizer_nearest_witness :
    (rgbaPixelToIndexedAlpha 1 2 3 200 [⟨5, 5, 5, 255⟩]).1 < 1 ∧
    (∀ m, m < 1 →
      l1Dist 1 2 3 ([⟨5, 5, 5, 255⟩].getD (rgbaPixelToIndexedAlpha 1 2 3 200 [⟨5, 5, 5, 255⟩]).1
          ⟨0, 0, 0, 0⟩) ≤
        l1Dist 1 2 3 ([⟨5, 5, 5, 255⟩].getD m ⟨0, 0, 0, 0⟩)) ∧
    (∀ m, m < (rgbaPixelToIndexedAlpha 1 2 3 200 [⟨5, 5, 5, 255⟩]).1 →
      l1Dist 1 2 3 ([⟨5, 5, 5, 255⟩].getD (rgbaPixelToIndexedAlpha 1 2 3 200 [⟨5, 5, 5, 255⟩]).1
          ⟨0, 0, 0, 0⟩) <
        l1Dist 1 2 3 ([⟨5, 5, 5, 255⟩].getD m ⟨0, 0, 0, 0⟩)) ∧
    (rgbaPixelToIndexedAlpha 1 2 3 200 [⟨5, 5, 5, 255⟩]).2 = 200 ∧
    rgbaPixelToIndexedAlpha 1 2 3 0 [⟨5, 5, 5, 255⟩] = (0, 0) :=
  C6_quantizer_nearest 1 2 3 200 [⟨5, 5, 5, 255⟩] (by decide) (by decide) (by decide)
    (by decide) (by decide) (by decide) (by decide)

theorem mpcCollectInner_acc (data : List Nat) (total : Nat) :
    ∀ (count off pix : Nat) (acc : List Nat),
      mpcCollectInner data total count acc off pix =
        (acc ++ (mpcCollectInner data total count [] off pix).1,
          (mpcCollectInner data total count [] off pix).2) := by
  intro count
  induction count with
  | zero => intro off pix acc; simp [mpcCollectInner]
  | succ n ih =>
    intro off pix acc
    by_cases hc : pix ≥ total ∨ off ≥ data.length
    · simp [mpcCollectInner, hc]
    · rw [mpcCollectInner, if_neg hc, mpcCollectInner, if_neg hc]
      rw [ih (off + 1) (pix + 1) (acc ++ [data.getD off 0]),
        ih (off + 1) (pix + 1) ([] ++ [data.getD off 0])]
      simp

theorem mpcMarkInner_collect (data : List Nat) (total : Nat) :
    ∀ (count off pix : Nat) (used : Nat → Bool),
      (mpcMarkInner data total count used off pix).2 =
        (mpcCollectInner data total count [] off pix).2 ∧
      ∀ i, ((mpcMarkInner data total count used off pix).1 i = true ↔
        used i = true ∨ i ∈ (mpcCollectInner data total count [] off pix).1) := by
  intro count
  induction count with
  | zero => intro off pix used; simp [mpcMarkInner, mpcCollectInner]
  | succ n ih =>
    intro off pix used
    by_cases hc : pix ≥ total ∨ off ≥ data.length
    · simp [mpcMarkInner, mpcCollectInner, hc]
    · rw [mpcMarkInner, if_neg hc, mpcCollectInner, if_neg hc]
      rw [mpcCollectInner_acc data total n (off + 1) (pix + 1) ([] ++ [data.getD off 0])]
      obtain ⟨h2, h1⟩ := ih (off + 1) (pix + 1) (setUsed used (data.getD off 0))
      refine ⟨h2, ?_⟩
      intro i
      rw [h1 i]
      simp only [setUsed, List.nil_append, List.singleton_append, List.mem_cons]
      by_cases hi : i = data.getD off 0 <;> simp [hi] <;> tauto

theorem mpcCollectLoop_acc (data : List Nat) (rle_end total : Nat) :
    ∀ (fuel off pix : Nat) (acc : List Nat),
      mpcCollectLoop data rle_end total fuel acc off pix =
        acc ++ mpcCollectLoop data rle_end total fuel [] off pix := by
  intro fuel
  induction fuel with
  | zero => intro off pix acc; simp [mpcCollectLoop]
  | succ n ih =>
    intro off pix acc
    by_cases hc : off < rle_end ∧ off < data.length ∧ pix < total
    · rw [mpcCollectLoop, if_pos hc, mpcCollectLoop, if_pos hc]
      by_cases hb : data.getD off 0 > 128
      · rw [if_pos hb, if_pos hb, ih]
      · rw [if_neg hb, if_neg hb]
        rw [mpcCollectInner_acc data total (data.getD off 0) (off + 1) pix acc]
        dsimp only
        rw [ih _ _ (acc ++ (mpcCollectInner data total (data.getD off 0) [] (off + 1) pix).1),
          ih _ _ (mpcCollectInner data total (data.getD off 0) [] (off + 1) pix).1]
        simp
    · simp [mpcCollectLoop, hc]

theorem mpcMarkLoop_collect (data : List Nat) (rle_end total : Nat) :
    ∀ (fuel off pix : Nat) (used : Nat → Bool) (i : Nat),
      (mpcMarkLoop data rle_end total fuel used off pix) i = true ↔
        used i = true ∨ i ∈ mpcCollectLoop data rle_end total fuel [] off pix := by
  intro fuel
  induction fuel with
  | zero => intro off pix used i; simp [mpcMarkLoop, mpcCollectLoop]
  | succ n ih =>
    intro off pix used i
    by_cases hc : off < rle_end ∧ off < data.length ∧ pix < total
    · rw [mpcMarkLoop, if_pos hc, mpcCollectLoop, if_pos hc]
      by_cases hb : data.getD off 0 > 128
      · rw [if_pos hb, if_pos hb]
        exact ih (off + 1) (pix + (data.getD off 0 - 128)) used i
      · rw [if_neg hb, if_neg hb]
        dsimp only
        obtain ⟨h2, h1⟩ := mpcMarkInner_collect data total (data.getD off 0) (off + 1) pix used
        rw [h2]
        rw [ih _ _ _ i]
        rw [h1 i]
        rw [mpcCollectLoop_acc data rle_end total n _ _
          (mpcCollectInner data total (data.getD off 0) [] (off + 1) pix).1]
        simp only [List.mem_append]
        tauto
    · simp [mpcMarkLoop, mpcCollectLoop, hc]

theorem mpcFrameRefs_acc (mpc_data : List Nat) (fds : Nat) (off : Nat) (acc : List Nat) :
    mpcFrameRefs mpc_data fds acc off = acc ++ mpcFrameRefs mpc_data fds [] off := by
  simp only [mpcFrameRefs]
  split_ifs with h1 h2
  · simp
  · simp
  · exact mpcCollectLoop_acc _ _ _ _ _ _ acc

theorem markFrameUsed_refs (mpc_data : List Nat) (fds : Nat) (off : Nat)
    (used : Nat → Bool) (i : Nat) :
    (markFrameUsed mpc_data fds used off) i = true ↔
      used i = true ∨ i ∈ mpcFrameRefs mpc_data fds [] off := by
  simp only [markFrameUsed, mpcFrameRefs]
  split_ifs with h1 h2
  · simp
  · simp
  · exact mpcMarkLoop_collect _ _ _ _ _ _ _ _

theorem markFold_refs (mpc_data : List Nat) (fds : Nat) :
    ∀ (offs : List Nat) (used : Nat → Bool) (i : Nat),
      (offs.foldl (fun u off => markFrameUsed mpc_data fds u off) used) i = true ↔
        used i = true ∨
          i ∈ offs.foldl (fun acc off => mpcFrameRefs mpc_data fds acc off) [] := by
  intro offs
  induction offs with
  | nil => intro used i; simp
  | cons o rest ih =>
    intro used i
    rw [List.foldl_cons, List.foldl_cons, ih]
    rw [markFrameUsed_refs]
    have hacc : ∀ acc, rest.foldl (fun acc off => mpcFrameRefs mpc_data fds acc off) acc =
        acc ++ rest.foldl (fun acc off => mpcFrameRefs mpc_data fds acc off) [] := by
      clear ih
      induction rest with
      | nil => intro acc; simp
      | cons o' rest' ih' =>
        intro acc
        rw [List.foldl_cons, List.foldl_cons, ih', mpcFrameRefs_acc,
          ih' (mpcFrameRefs mpc_data fds [] o')]
        simp
    rw [hacc (mpcFrameRefs mpc_data fds [] o)]
    simp only [List.mem_append]
    tauto

theorem firstUnusedLoop_spec (u : Nat → Bool) :
    ∀ (n s : Nat),
      (∃ k, k < n ∧ u (s + k) = false ∧ (∀ m, m < k → u (s + m) = true) ∧
        firstUnusedLoop u n s = s + k) ∨
      ((∀ k, k < n → u (s + k) = true) ∧ firstUnusedLoop u n s = 0) := by
  intro n
  induction n with
  | zero => intro s; right; exact ⟨by omega, rfl⟩
  | succ n' ih =>
    intro s
    by_cases hs : u s = false
    · left
      refine ⟨0, by omega, by simpa using hs, by omega, ?_⟩
      rw [firstUnusedLoop, if_pos hs]
      omega
    · have hs' : u s = true := by
        cases h : u s
        · exact absurd h hs
        · rfl
      rcases ih (s + 1) with ⟨k, hk, hf, hall, heq⟩ | ⟨hall, heq⟩
      · left
        refine ⟨k + 1, by omega, ?_, ?_, ?_⟩
        · rw [show s + (k + 1) = s + 1 + k by omega]
          exact hf
        · intro m hm
          cases m with
          | zero => simpa using hs'
          | succ m' =>
            rw [show s + (m' + 1) = s + 1 + m' by omega]
            exact hall m' (by omega)
        · rw [firstUnusedLoop, if_neg (by simp [hs'])]
          rw [heq]
          omega
      · right
        refine ⟨?_, ?_⟩
        · intro k hk
          cases k with
          | zero => simpa using hs'
          | succ k' =>
            rw [show s + (k' + 1) = s + 1 + k' by omega]
            exact hall k' (by omega)
        · rw [firstUnusedLoop, if_neg (by simp [hs'])]
          exact heq

/-- Claim C5, amended: the transparent-index finder returns the
smallest index in `0..256` not referenced as an opaque pixel-index byte
by any frame's RLE traversal (falling back to 0 when all 256 are
referenced) — where a run's opaque index bytes are consumed while the
buffer and the frame's pixel budget allow, even one past the frame's
*declared* byte range: only the run headers are required to lie within
the declared range.  (The claim as stated requires the index bytes
themselves to lie within the declared byte range.) -/
theorem C5_transparent_index_least_unused (data : List Nat) (fds : Nat) (offs : List Nat) :
    ((∃ i, i < 256 ∧ i ∉ mpcRefsAll data fds offs) →
      (find_transparent_index_mpc data fds offs < 256 ∧
        find_transparent_index_mpc data fds offs ∉ mpcRefsAll data fds offs ∧
        ∀ j, j < find_transparent_index_mpc data fds offs → j ∈ mpcRefsAll data fds offs)) ∧
    ((∀ i, i < 256 → i ∈ mpcRefsAll data fds offs) →
      find_transparent_index_mpc data fds offs = 0) := by
  have hu : ∀ i, (offs.foldl (fun u off => markFrameUsed data fds u off) (fun _ => false)) i
      = true ↔ i ∈ mpcRefsAll data fds offs := by
    intro i
    rw [markFold_refs data fds offs (fun _ => false) i]
    rw [mpcRefsAll]
    simp
  have hfind : find_transparent_index_mpc data fds offs =
      firstUnusedLoop (offs.foldl (fun u off => markFrameUsed data fds u off)
        (fun _ => false)) 256 0 := by
    rw [find_transparent_index_mpc]
  rcases firstUnusedLoop_spec
      (offs.foldl (fun u off => markFrameUsed data fds u off) (fun _ => false)) 256 0 with
    ⟨k, hk, hf, hall, heq⟩ | ⟨hall, heq⟩
  · simp only [Nat.zero_add] at hf hall heq
    constructor
    · intro _
      rw [hfind, heq]
      refine ⟨hk, ?_, ?_⟩
      · intro hmem
        rw [← hu k] at hmem
        rw [hf] at hmem
        exact Bool.false_ne_true hmem
      · intro j hj
        rw [← hu j]
        exact hall j hj
    · intro hallmem
      have := (hu k).mpr (hallmem k hk)
      rw [hf] at this
      exact absurd this Bool.false_ne_true
  · simp only [Nat.zero_add] at hall heq
    constructor
    · intro ⟨i, hi, hnotmem⟩
      exact absurd ((hu i).mp (hall i hi)) hnotmem
    · intro _
      rw [hfind, heq]

/-- Counterexample to claim C5 as stated: on `c5Data` (one 1×1 frame
whose declared RLE range holds only the run header `0x02`; the run's
palette-index byte `0` sits one byte past the declared range) the
finder consumes the out-of-range byte, marks slot 0 used and returns 1,
while the claim's within-declared-range characterisation marks nothing
and demands 0. -/
theorem C5_counterexample :
    find_transparent_index_mpc c5Data 0 [0] = 1 ∧
    find_transparent_index_claim c5Data 0 [0] = 0 ∧
    mpcRefsAll c5Data 0 [0] = [0] := by
  refine ⟨by decide, by decide, by decide⟩

theorem C5_transparent_index_least_unused_witness :
    find_transparent_index_mpc c5Data 0 [0] < 256 ∧
    find_transparent_index_mpc c5Data 0 [0] ∉ mpcRefsAll c5Data 0 [0] ∧
    ∀ j, j < find_transparent_index_mpc c5Data 0 [0] → j ∈ mpcRefsAll c5Data 0 [0] :=
  (C5_transparent_index_least_unused c5Data 0 [0]).1 ⟨1, by decide, by decide⟩

theorem bboxScanned_mono (w y k x yy : Nat) (hs : bboxScanned w y k x yy) :
    bboxScanned w y (k + 1) x yy := by
  simp only [bboxScanned] at hs ⊢
  omega

theorem bboxScanned_split (w y k x yy : Nat) (hk : k < w)
    (hs : bboxScanned w y (k + 1) x yy) :
    bboxScanned w y k x yy ∨ (x = k ∧ yy = y) := by
  simp only [bboxScanned] at hs ⊢
  omega

theorem bboxStep_inv (pixels : List Nat) (w h : Nat) (st : BboxState) (y k : Nat)
    (hy : y < h) (hk : k < w) (hinv : bboxInv pixels w h st y k) :
    bboxInv pixels w h (bboxStep pixels w y k st) y (k + 1) := by
  obtain ⟨hF, hT⟩ := hinv
  rw [bboxStep]
  by_cases hc : (y * w + k) * 4 + 3 < pixels.length ∧
      0 < pixels.getD ((y * w + k) * 4 + 3) 0
  · rw [if_pos hc]
    have hcont : bboxContent pixels w k y := hc
    have hnewpt : bboxScanned w y (k + 1) k y := Or.inr ⟨rfl, Nat.lt_succ_self k⟩
    constructor
    · intro habs
      simp at habs
    · intro _
      cases hst : st.has_content with
      | false =>
        obtain ⟨hmx, hmy, hMx, hMy, hnone⟩ := hF hst
        have e1 : (if k < st.min_x then k else st.min_x) = k := by
          have hlt : k < st.min_x := by omega
          rw [if_pos hlt]
        have e2 : (if y < st.min_y then y else st.min_y) = y := by
          have hlt : y < st.min_y := by omega
          rw [if_pos hlt]
        have e3 : (if k > st.max_x then k else st.max_x) = k := by
          by_cases hkz : k > st.max_x
          · rw [if_pos hkz]
          · rw [if_neg hkz]
            omega
        have e4 : (if y > st.max_y then y else st.max_y) = y := by
          by_cases hyz : y > st.max_y
          · rw [if_pos hyz]
          · rw [if_neg hyz]
            omega
        refine ⟨?_, ?_, ?_, ?_, ?_⟩
        · intro x yy hsc hco
          rcases bboxScanned_split w y k x yy hk hsc with hold | ⟨hx, hyy⟩
          · exact absurd hco (hnone x yy hold)
          · subst hx
            subst hyy
            dsimp only
            split_ifs <;> omega
        · exact ⟨k, y, hnewpt, hcont, by simp only [e1]⟩
        · exact ⟨k, y, hnewpt, hcont, by simp only [e3]⟩
        · exact ⟨k, y, hnewpt, hcont, by simp only [e2]⟩
        · exact ⟨k, y, hnewpt, hcont, by simp only [e4]⟩
      | true =>
        obtain ⟨hbnd, hwminx, hwmaxx, hwminy, hwmaxy⟩ := hT hst
        have a1 : (if k < st.min_x then k else st.min_x) ≤ st.min_x ∧
            (if k < st.min_x then k else st.min_x) ≤ k ∧
            ((if k < st.min_x then k else st.min_x) = st.min_x ∨
              (if k < st.min_x then k else st.min_x) = k) := by
          by_cases hcase : k < st.min_x <;> simp [hcase] <;> omega
        have a2 : (if y < st.min_y then y else st.min_y) ≤ st.min_y ∧
            (if y < st.min_y then y else st.min_y) ≤ y ∧
            ((if y < st.min_y then y else st.min_y) = st.min_y ∨
              (if y < st.min_y then y else st.min_y) = y) := by
          by_cases hcase : y < st.min_y <;> simp [hcase] <;> omega
        have a3 : st.max_x ≤ (if k > st.max_x then k else st.max_x) ∧
            k ≤ (if k > st.max_x then k else st.max_x) ∧
            ((if k > st.max_x then k else st.max_x) = st.max_x ∨
              (if k > st.max_x then k else st.max_x) = k) := by
          by_cases hcase : k > st.max_x <;> simp [hcase] <;> omega
        have a4 : st.max_y ≤ (if y > st.max_y then y else st.max_y) ∧
            y ≤ (if y > st.max_y then y else st.max_y) ∧
            ((if y > st.max_y then y else st.max_y) = st.max_y ∨
              (if y > st.max_y then y else st.max_y) = y) := by
          by_cases hcase : y > st.max_y <;> simp [hcase] <;> omega
        refine ⟨?_, ?_, ?_, ?_, ?_⟩
        · intro x yy hsc hco
          rcases bboxScanned_split w y k x yy hk hsc with hold | ⟨hx, hyy⟩
          · have := hbnd x yy hold hco
            simp only
            omega
          · subst hx
            subst hyy
            simp only
            omega
        · rcases a1.2.2 with he | he
          · obtain ⟨x, yy, hs, hco, hx⟩ := hwminx
            exact ⟨x, yy, bboxScanned_mono w y k x yy hs, hco, by simp only [he, hx]⟩
          · exact ⟨k, y, hnewpt, hcont, by simp only [he]⟩
        · rcases a3.2.2 with he | he
          · obtain ⟨x, yy, hs, hco, hx⟩ := hwmaxx
            exact ⟨x, yy, bboxScanned_mono w y k x yy hs, hco, by simp only [he, hx]⟩
          · exact ⟨k, y, hnewpt, hcont, by simp only [he]⟩
        · rcases a2.2.2 with he | he
          · obtain ⟨x, yy, hs, hco, hyy⟩ := hwminy
            exact ⟨x, yy, bboxScanned_mono w y k x yy hs, hco, by simp only [he, hyy]⟩
          · exact ⟨k, y, hnewpt, hcont, by simp only [he]⟩
        · rcases a4.2.2 with he | he
          · obtain ⟨x, yy, hs, hco, hyy⟩ := hwmaxy
            exact ⟨x, yy, bboxScanned_mono w y k x yy hs, hco, by simp only [he, hyy]⟩
          · exact ⟨k, y, hnewpt, hcont, by simp only [he]⟩
  · rw [if_neg hc]
    have hnc : ¬bboxContent pixels w k y := hc
    obtain ⟨hF, hT⟩ := And.intro hF hT
    constructor
    · intro hst
      obtain ⟨hmx, hmy, hMx, hMy, hnone⟩ := hF hst
      refine ⟨hmx, hmy, hMx, hMy, ?_⟩
      intro x yy hsc
      rcases bboxScanned_split w y k x yy hk hsc with hold | ⟨hx, hyy⟩
      · exact hnone x yy hold
      · subst hx
        subst hyy
        exact hnc
    · intro hst
      obtain ⟨hbnd, hwminx, hwmaxx, hwminy, hwmaxy⟩ := hT hst
      refine ⟨?_, ?_, ?_, ?_, ?_⟩
      · intro x yy hsc hco
        rcases bboxScanned_split w y k x yy hk hsc with hold | ⟨hx, hyy⟩
        · exact hbnd x yy hold hco
        · subst hx
          subst hyy
          exact absurd hco hnc
      · obtain ⟨x, yy, hs, hco, hx⟩ := hwminx
        exact ⟨x, yy, bboxScanned_mono w y k x yy hs, hco, hx⟩
      · obtain ⟨x, yy, hs, hco, hx⟩ := hwmaxx
        exact ⟨x, yy, bboxScanned_mono w y k x yy hs, hco, hx⟩
      · obtain ⟨x, yy, hs, hco, hyy⟩ := hwminy
        exact ⟨x, yy, bboxScanned_mono w y k x yy hs, hco, hyy⟩
      · obtain ⟨x, yy, hs, hco, hyy⟩ := hwmaxy
        exact ⟨x, yy, bboxScanned_mono w y k x yy hs, hco, hyy⟩

theorem bboxRow_inv (pixels : List Nat) (w h : Nat) (y : Nat) (hy : y < h) :
    ∀ (k : Nat), k ≤ w → ∀ (st : BboxState), bboxInv pixels w h st y 0 →
      bboxInv pixels w h
        ((List.range k).foldl (fun st x => bboxStep pixels w y x st) st) y k := by
  intro k
  induction k with
  | zero => intro _ st hinv; simpa using hinv
  | succ n ih =>
    intro hk st hinv
    rw [List.range_succ, List.foldl_append]
    exact bboxStep_inv pixels w h _ y n hy (by omega) (ih (by omega) st hinv)

theorem bboxShift (pixels : List Nat) (w h : Nat) (st : BboxState) (y : Nat)
    (hinv : bboxInv pixels w h st y w) : bboxInv pixels w h st (y + 1) 0 := by
  have hiff : ∀ x yy, bboxScanned w (y + 1) 0 x yy ↔ bboxScanned w y w x yy := by
    intro x yy
    constructor
    · intro hs
      rcases hs with ⟨h1, h2⟩ | ⟨h1, h2⟩
      · rcases Nat.lt_succ_iff_lt_or_eq.mp h1 with h3 | h3
        · exact Or.inl ⟨h3, h2⟩
        · exact Or.inr ⟨h3, h2⟩
      · omega
    · intro hs
      rcases hs with ⟨h1, h2⟩ | ⟨h1, h2⟩
      · exact Or.inl ⟨by omega, h2⟩
      · exact Or.inl ⟨by omega, h2⟩
  obtain ⟨hF, hT⟩ := hinv
  constructor
  · intro hst
    obtain ⟨h1, h2, h3, h4, h5⟩ := hF hst
    exact ⟨h1, h2, h3, h4, fun x yy hs => h5 x yy ((hiff x yy).mp hs)⟩
  · intro hst
    obtain ⟨hbnd, ⟨x1, y1, s1, c1, e1⟩, ⟨x2, y2, s2, c2, e2⟩, ⟨x3, y3, s3, c3, e3⟩,
      ⟨x4, y4, s4, c4, e4⟩⟩ := hT hst
    exact ⟨fun x yy hs hc => hbnd x yy ((hiff x yy).mp hs) hc,
      ⟨x1, y1, (hiff x1 y1).mpr s1, c1, e1⟩,
      ⟨x2, y2, (hiff x2 y2).mpr s2, c2, e2⟩,
      ⟨x3, y3, (hiff x3 y3).mpr s3, c3, e3⟩,
      ⟨x4, y4, (hiff x4 y4).mpr s4, c4, e4⟩⟩

theorem bboxOuter_inv (pixels : List Nat) (w h : Nat) :
    ∀ (t : Nat), t ≤ h →
      bboxInv pixels w h
        ((List.range t).foldl (fun st yy =>
          (List.range w).foldl (fun st x => bboxStep pixels w yy x st) st)
          ⟨w, h, 0, 0, false⟩) t 0 := by
  intro t
  induction t with
  | zero =>
    intro _
    constructor
    · intro _
      refine ⟨rfl, rfl, rfl, rfl, ?_⟩
      intro x yy hs
      rcases hs with ⟨h1, _⟩ | ⟨_, h2⟩
      · omega
      · omega
    · intro hst
      exact absurd hst (by simp)
  | succ n ih =>
    intro ht
    rw [List.range_succ, List.foldl_append]
    exact bboxShift pixels w h _ n
      (bboxRow_inv pixels w h n (by omega) w (le_refl w) _ (ih (by omega)))

theorem toI16_eq (n : Nat) (h : n < 32768) : toI16 (n : Int) = n := by
  simp only [toI16]
  split_ifs <;> omega

theorem bboxScanned_full (w h x yy : Nat) (hs : bboxScanned w h 0 x yy) :
    yy < h ∧ x < w := by
  rcases hs with ⟨a, b⟩ | ⟨_, b⟩
  · exact ⟨a, b⟩
  · omega

/-- C7: `compute_tight_bbox` returns `(0, 0, 0, 0)` when no canvas pixel
has positive alpha; otherwise it returns the origin and size of the
smallest axis-aligned rectangle containing every positive-alpha canvas
pixel: every such pixel lies inside the rectangle, and each of the four
edges is attained by some positive-alpha pixel, so shrinking any edge by
one row or column would exclude one.  The hypotheses `w ≤ 32768`,
`h ≤ 32768` keep the `as i16` casts of the origin the identity. -/
theorem C7_tight_bbox (pixels : List Nat) (w h : Nat)
    (hw : w ≤ 32768) (hh : h ≤ 32768) :
    ((¬ ∃ x yy, x < w ∧ yy < h ∧ bboxContent pixels w x yy) →
      compute_tight_bbox pixels w h = (0, 0, 0, 0)) ∧
    ((∃ x yy, x < w ∧ yy < h ∧ bboxContent pixels w x yy) →
      ∃ (nx ny bw bh : Nat),
        compute_tight_bbox pixels w h = ((nx : Int), (ny : Int), bw, bh) ∧
        0 < bw ∧ 0 < bh ∧ nx + bw ≤ w ∧ ny + bh ≤ h ∧
        (∀ x yy, x < w → yy < h → bboxContent pixels w x yy →
          nx ≤ x ∧ x < nx + bw ∧ ny ≤ yy ∧ yy < ny + bh) ∧
        (∃ yy, yy < h ∧ bboxContent pixels w nx yy) ∧
        (∃ yy, yy < h ∧ bboxContent pixels w (nx + bw - 1) yy) ∧
        (∃ x, x < w ∧ bboxContent pixels w x ny) ∧
        (∃ x, x < w ∧ bboxContent pixels w x (ny + bh - 1))) := by
  have hinv := bboxOuter_inv pixels w h h (le_refl h)
  set F := (List.range h).foldl (fun st yy =>
      (List.range w).foldl (fun st x => bboxStep pixels w yy x st) st)
      (⟨w, h, 0, 0, false⟩ : BboxState) with hF
  have hcomp : compute_tight_bbox pixels w h =
      (if F.has_content = false then ((0 : Int), (0 : Int), (0 : Nat), (0 : Nat))
       else (toI16 F.min_x, toI16 F.min_y,
         (F.max_x - F.min_x + 1) % 65536, (F.max_y - F.min_y + 1) % 65536)) := rfl
  cases hc : F.has_content with
  | false =>
    obtain ⟨_, _, _, _, hno⟩ := hinv.1 hc
    constructor
    · intro _
      rw [hcomp, if_pos hc]
    · intro hex
      obtain ⟨x, yy, hx, hyy, hcont⟩ := hex
      exact absurd hcont (hno x yy (Or.inl ⟨hyy, hx⟩))
  | true =>
    obtain ⟨hbnd, ⟨x1, y1, s1, c1, e1⟩, ⟨x2, y2, s2, c2, e2⟩,
      ⟨x3, y3, s3, c3, e3⟩, ⟨x4, y4, s4, c4, e4⟩⟩ := hinv.2 hc
    obtain ⟨hy1, hx1⟩ := bboxScanned_full w h x1 y1 s1
    obtain ⟨hy2, hx2⟩ := bboxScanned_full w h x2 y2 s2
    obtain ⟨hy3, hx3⟩ := bboxScanned_full w h x3 y3 s3
    obtain ⟨hy4, hx4⟩ := bboxScanned_full w h x4 y4 s4
    have hb1 := hbnd x1 y1 s1 c1
    have hb3 := hbnd x3 y3 s3 c3
    have hminmaxx : F.min_x ≤ F.max_x := by omega
    have hminmaxy : F.min_y ≤ F.max_y := by omega
    constructor
    · intro hno
      exact absurd ⟨x1, y1, hx1, hy1, c1⟩ hno
    · intro _
      refine ⟨F.min_x, F.min_y, F.max_x - F.min_x + 1, F.max_y - F.min_y + 1,
        ?_, by omega, by omega, by omega, by omega, ?_, ?_, ?_, ?_, ?_⟩
      · rw [hcomp, if_neg (by simp [hc])]
        rw [toI16_eq F.min_x (by omega), toI16_eq F.min_y (by omega),
          Nat.mod_eq_of_lt (by omega), Nat.mod_eq_of_lt (by omega)]
      · intro x yy hxw hyyh hcont
        have := hbnd x yy (Or.inl ⟨hyyh, hxw⟩) hcont
        omega
      · exact ⟨y1, hy1, e1 ▸ c1⟩
      · refine ⟨y2, hy2, ?_⟩
        have hx2e : F.min_x + (F.max_x - F.min_x + 1) - 1 = x2 := by omega
        rw [hx2e]
        exact c2
      · exact ⟨x3, hx3, e3 ▸ c3⟩
      · refine ⟨x4, hx4, ?_⟩
        have hy4e : F.min_y + (F.max_y - F.min_y + 1) - 1 = y4 := by omega
        rw [hy4e]
        exact c4

theorem C7_tight_bbox_witness :
    (2 ≤ 32768 ∧ 2 ≤ 32768) ∧
    (((¬ ∃ x yy, x < 2 ∧ yy < 2 ∧
        bboxContent [0, 0, 0, 0, 9, 9, 9, 5, 0, 0, 0, 0, 0, 0, 0, 0] 2 x yy) →
      compute_tight_bbox [0, 0, 0, 0, 9, 9, 9, 5, 0, 0, 0, 0, 0, 0, 0, 0] 2 2 =
        (0, 0, 0, 0)) ∧
    ((∃ x yy, x < 2 ∧ yy < 2 ∧
        bboxContent [0, 0, 0, 0, 9, 9, 9, 5, 0, 0, 0, 0, 0, 0, 0, 0] 2 x yy) →
      ∃ (nx ny bw bh : Nat),
        compute_tight_bbox [0, 0, 0, 0, 9, 9, 9, 5, 0, 0, 0, 0, 0, 0, 0, 0] 2 2 =
          ((nx : Int), (ny : Int), bw, bh) ∧
        0 < bw ∧ 0 < bh ∧ nx + bw ≤ 2 ∧ ny + bh ≤ 2 ∧
        (∀ x yy, x < 2 → yy < 2 →
          bboxContent [0, 0, 0, 0, 9, 9, 9, 5, 0, 0, 0, 0, 0, 0, 0, 0] 2 x yy →
          nx ≤ x ∧ x < nx + bw ∧ ny ≤ yy ∧ yy < ny + bh) ∧
        (∃ yy, yy < 2 ∧
          bboxContent [0, 0, 0, 0, 9, 9, 9, 5, 0, 0, 0, 0, 0, 0, 0, 0] 2 nx yy) ∧
        (∃ yy, yy < 2 ∧
          bboxContent [0, 0, 0, 0, 9, 9, 9, 5, 0, 0, 0, 0, 0, 0, 0, 0] 2 (nx + bw - 1) yy) ∧
        (∃ x, x < 2 ∧
          bboxContent [0, 0, 0, 0, 9, 9, 9, 5, 0, 0, 0, 0, 0, 0, 0, 0] 2 x ny) ∧
        (∃ x, x < 2 ∧
          bboxContent [0, 0, 0, 0, 9, 9, 9, 5, 0, 0, 0, 0, 0, 0, 0, 0] 2 x (ny + bh - 1)))) :=
  ⟨⟨by omega, by omega⟩,
    C7_tight_bbox [0, 0, 0, 0, 9, 9, 9, 5, 0, 0, 0, 0, 0, 0, 0, 0] 2 2
      (by omega) (by omega)⟩

theorem encodeFramesLoop_some (input : MsfEncodeInput) :
    ∀ (fuel i : Nat) (acc : List (FrameEntry × List Nat)),
      i + fuel ≤ input.frame_pixels.length →
      ∃ rs, encodeFramesLoop input fuel i acc = some rs := by
  intro fuel
  induction fuel with
  | zero => intro i acc _; exact ⟨acc, rfl⟩
  | succ n ih =>
    intro i acc hle
    have hi : i < input.frame_pixels.length := by omega
    have hfr : ∃ fr, encodeFrameRaw input i = some fr := by
      simp only [encodeFrameRaw]
      rw [if_pos hi]
      split_ifs <;> exact ⟨_, rfl⟩
    obtain ⟨fr, hfr⟩ := hfr
    obtain ⟨rs, hrs⟩ := ih (i + 1) (acc ++ [fr]) (by omega)
    refine ⟨rs, ?_⟩
    simp only [encodeFramesLoop, hfr]
    exact hrs


theorem parse_msf_header_28
    (b8 b9 b10 b11 b12 b13 b14 b15 b16 b17 b18 b19 b24 b25 b26 : Nat)
    (rest : List Nat) :
    ∃ hdr,
      parse_msf_header (hdrBytes28 b8 b9 b10 b11 b12 b13 b14 b15 b16 b17 b18
        b19 b24 b25 b26 rest) = some hdr ∧
      hdr.canvas_width = u16fromLe b8 b9 ∧
      hdr.canvas_height = u16fromLe b10 b11 ∧
      hdr.frame_count = u16fromLe b12 b13 ∧
      hdr.directions = b14 ∧
      hdr.fps = b15 ∧
      hdr.anchor_x = i16fromLe b16 b17 ∧
      hdr.anchor_y = i16fromLe b18 b19 ∧
      hdr.pixel_format = b24 ∧
      hdr.palette_size = u16fromLe b25 b26 := by
  have hlen : ¬ (hdrBytes28 b8 b9 b10 b11 b12 b13 b14 b15 b16 b17 b18 b19 b24
      b25 b26 rest).length < 28 := by
    simp only [hdrBytes28, List.length_cons]
    omega
  have htake : ¬ ((hdrBytes28 b8 b9 b10 b11 b12 b13 b14 b15 b16 b17 b18 b19 b24
      b25 b26 rest).take 4 ≠ msf1MagicBytes) := fun hne => hne rfl
  simp only [parse_msf_header]
  rw [if_neg hlen, if_neg htake, if_neg hlen]
  exact ⟨_, rfl, rfl, rfl, rfl, rfl, rfl, rfl, rfl, rfl, rfl⟩

/-- C9: header roundtrip of the engine codec.  For any encode input whose
numeric fields fit their wire types (`u16` canvas size, frame count and
palette size, `u8` directions and fps, `i16` anchors) and whose
`frame_pixels` list has one buffer per declared frame, `encode_msf`
succeeds and `parse_msf_header` of its output returns a header whose
canvas size, frame count, directions, fps, anchors, pixel-format tag and
palette size are exactly the input's. -/
theorem C9_header_roundtrip (input : MsfEncodeInput)
    (hcw : input.canvas_width < 65536) (hch : input.canvas_height < 65536)
    (hfc : input.frame_count < 65536) (hdir : input.directions < 256)
    (hfps : input.fps < 256)
    (hax1 : -32768 ≤ input.anchor_x) (hax2 : input.anchor_x < 32768)
    (hay1 : -32768 ≤ input.anchor_y) (hay2 : input.anchor_y < 32768)
    (hpal : input.palette.length < 65536)
    (hfp : input.frame_pixels.length = input.frame_count) :
    ∃ data hdr, encode_msf input = some data ∧
      parse_msf_header data = some hdr ∧
      hdr.canvas_width = input.canvas_width ∧
      hdr.canvas_height = input.canvas_height ∧
      hdr.frame_count = input.frame_count ∧
      hdr.directions = input.directions ∧
      hdr.fps = input.fps ∧
      hdr.anchor_x = input.anchor_x ∧
      hdr.anchor_y = input.anchor_y ∧
      hdr.pixel_format = input.pixel_format.toByte ∧
      hdr.palette_size = input.palette.length := by
  obtain ⟨rs, hrs⟩ := encodeFramesLoop_some input input.frame_count 0 [] (by omega)
  obtain ⟨rest, henc⟩ : ∃ rest, encode_msf input = some (hdrBytes28
      (input.canvas_width % 256) (input.canvas_width / 256 % 256)
      (input.canvas_height % 256) (input.canvas_height / 256 % 256)
      (input.frame_count % 256) (input.frame_count / 256 % 256)
      input.directions input.fps
      ((input.anchor_x % 65536).toNat % 256) ((input.anchor_x % 65536).toNat / 256 % 256)
      ((input.anchor_y % 65536).toNat % 256) ((input.anchor_y % 65536).toNat / 256 % 256)
      input.pixel_format.toByte
      (input.palette.length % 65536 % 256) (input.palette.length % 65536 / 256 % 256)
      rest) := by
    simp only [encode_msf, hrs, List.append_assoc]
    exact ⟨_, rfl⟩
  obtain ⟨hdr, hp, f1, f2, f3, f4, f5, f6, f7, f8, f9⟩ := parse_msf_header_28
    (input.canvas_width % 256) (input.canvas_width / 256 % 256)
    (input.canvas_height % 256) (input.canvas_height / 256 % 256)
    (input.frame_count % 256) (input.frame_count / 256 % 256)
    input.directions input.fps
    ((input.anchor_x % 65536).toNat % 256) ((input.anchor_x % 65536).toNat / 256 % 256)
    ((input.anchor_y % 65536).toNat % 256) ((input.anchor_y % 65536).toNat / 256 % 256)
    input.pixel_format.toByte
    (input.palette.length % 65536 % 256) (input.palette.length % 65536 / 256 % 256)
    rest
  refine ⟨_, hdr, henc, hp, ?_, ?_, ?_, ?_, ?_, ?_, ?_, ?_, ?_⟩
  · rw [f1]
    simp only [u16fromLe]
    omega
  · rw [f2]
    simp only [u16fromLe]
    omega
  · rw [f3]
    simp only [u16fromLe]
    omega
  · exact f4
  · exact f5
  · rw [f6]
    simp only [i16fromLe]
    split_ifs <;> omega
  · rw [f7]
    simp only [i16fromLe]
    split_ifs <;> omega
  · exact f8
  · rw [f9]
    simp only [u16fromLe]
    omega

theorem C9_header_roundtrip_witness :
    (c9Input.canvas_width < 65536 ∧ c9Input.canvas_height < 65536 ∧
      c9Input.frame_count < 65536 ∧ c9Input.directions < 256 ∧
      c9Input.fps < 256 ∧
      -32768 ≤ c9Input.anchor_x ∧ c9Input.anchor_x < 32768 ∧
      -32768 ≤ c9Input.anchor_y ∧ c9Input.anchor_y < 32768 ∧
      c9Input.palette.length < 65536 ∧
      c9Input.frame_pixels.length = c9Input.frame_count) ∧
    (∃ data hdr, encode_msf c9Input = some data ∧
      parse_msf_header data = some hdr ∧
      hdr.canvas_width = c9Input.canvas_width ∧
      hdr.canvas_height = c9Input.canvas_height ∧
      hdr.frame_count = c9Input.frame_count ∧
      hdr.directions = c9Input.directions ∧
      hdr.fps = c9Input.fps ∧
      hdr.anchor_x = c9Input.anchor_x ∧
      hdr.anchor_y = c9Input.anchor_y ∧
      hdr.pixel_format = c9Input.pixel_format.toByte ∧
      hdr.palette_size = c9Input.palette.length) :=
  ⟨⟨by decide, by decide, by decide, by decide, by decide, by decide, by decide,
    by decide, by decide, by decide, by decide⟩,
   C9_header_roundtrip c9Input (by decide) (by decide) (by decide) (by decide)
     (by decide) (by decide) (by decide) (by decide) (by decide) (by decide)
     (by decide)⟩
